import Mathlib

/-!
Shallow embedding of the Pamir hardware-test harness (`hardware_test.py`):
the test-session state machine (`main`'s per-attempt loop body), the
per-device result aggregate (`TestResult`), the operator yes/no prompt
(`get_yes_no_input`), the SSH layer (`ssh_execute_command`,
`ssh_execute_interactive`, `reconnect_ssh`, `perform_ssh_tests`), the
firmware step (`upload_firmware_wipe`) and the overall-pass computation of
`save_to_excel`.

External effects are modelled by explicit oracles carried in a `World`
record: `stdin` is the stream of operator keyboard lines, `clock` the
successive values produced by `int(time.time() - start_time)`, `connects`
the outcomes of successive SSH connection attempts, `execs` / `iexecs` the
outcomes of successive `exec_command` / `invoke_shell` interactions, and
`fw` the behaviour of the firmware-flashing collaborators.  A ghost `trace`
field records observable events (prompts shown, commands executed,
connection attempts, report rows saved); it is write-only instrumentation
and never influences control flow.  An operation that would block forever
in Python (an `input()` on an exhausted stdin stream) is modelled by the
whole run returning `none`.
-/

/-- Value stored in `TestResult.test_results`: Python `None` (test selected
but not yet run), `True` (pass), `False` (fail) or the string `'SKIPPED'`
(test excluded from the selection at construction). -/
inductive PyVal where
  | unset
  | pyTrue
  | pyFalse
  | skipped
  deriving DecidableEq, Repr

/-- Python truthiness of the values stored in `test_results`: `None` is
falsy, `True` truthy, `False` falsy, and the non-empty string `'SKIPPED'`
truthy.  This is what `all(test_results_values)` in `save_to_excel`
evaluates on each element. -/
def PyVal.truthy : PyVal → Bool
  | .unset => false
  | .pyTrue => true
  | .pyFalse => false
  | .skipped => true

/-- Conversion of the `result` argument of `set_test_result`
(`True` / `False` / `None`) to the stored value. -/
def PyVal.ofResult : Option Bool → PyVal
  | some true => .pyTrue
  | some false => .pyFalse
  | none => .unset

/-- Python's `v is not None` on the stored values (only `None` is the
`None` object; `True`, `False` and `'SKIPPED'` are not). -/
def PyVal.nonNone : PyVal → Bool
  | .unset => false
  | _ => true

/-- Recognizer of a stored `False` (a failed test). -/
def PyVal.isFail : PyVal → Bool
  | .pyFalse => true
  | _ => false

/-- The static test catalog `TEST_IDS` of `hardware_test.py`
(identifier, human-readable name). -/
def TEST_IDS : List (String × String) :=
  [("T01", "Firmware Upload"),
   ("T02", "CM5 LED Visual Check"),
   ("T03", "RGB LED Visual Check"),
   ("T04", "E-ink Display Refresh"),
   ("T05", "UI Appears"),
   ("T06", "Button Response"),
   ("T07", "Voice Transcribed"),
   ("T09", "USB MicroPython Detection"),
   ("T10", "USB Hub Detection"),
   ("T11", "USB Media Detection"),
   ("T12", "RGB LED SSH Test"),
   ("T13", "SD Card Detection"),
   ("T14", "Camera Detection")]

/-- The catalog keys, in catalog order. -/
def test_ids_keys : List String := TEST_IDS.map Prod.fst

/-- One line of the append-only per-device log file written by
`set_test_result` (abstracting the timestamp away; the test name is
recoverable from `TEST_IDS`). -/
structure LogEntry where
  testId : String
  status : Option Bool
  details : String
  duration : Option Nat
  deriving DecidableEq, Repr

/-- The per-device result aggregate (class `TestResult`).  `test_results`
and `test_durations` are the dictionaries keyed by catalog test id;
`tests_to_run` is the operator's selection; `log` is the contents of the
per-device log file. -/
structure TestResult where
  device_id : Nat
  test_results : String → PyVal
  test_durations : String → Option Nat
  tests_to_run : List String
  overall_pass : Bool
  notes : String
  log : List LogEntry

/-- Constructor `TestResult.__init__`: every catalog id gets `None`
(status) / `None` (duration) when selected, `'SKIPPED'` / `0` otherwise;
`overall_pass` starts `False` and `notes` empty. -/
def TestResult.init (device_id : Nat) (tests_to_run : List String) : TestResult :=
  { device_id := device_id
    test_results := fun id =>
      if id ∈ tests_to_run then PyVal.unset else PyVal.skipped
    test_durations := fun id =>
      if id ∈ tests_to_run then none else some 0
    tests_to_run := tests_to_run
    overall_pass := false
    notes := ""
    log := [] }

/-- Method `TestResult.set_test_result`: unconditionally stores `result`
under `test_id`, stores `duration` only when it is not `None`, and appends
a line to the log file.  There is no precondition on the previous status. -/
def TestResult.set_test_result (tr : TestResult) (test_id : String)
    (result : Option Bool) (details : String) (duration : Option Nat) : TestResult :=
  { tr with
    test_results := fun id =>
      if id = test_id then PyVal.ofResult result else tr.test_results id
    test_durations := fun id =>
      match duration with
      | some d => if id = test_id then some d else tr.test_durations id
      | none => tr.test_durations id
    log := tr.log ++ [⟨test_id, result, details, duration⟩] }

/-- Overall pass/fail as computed at the top of `save_to_excel`:
`test_results_values = [v for v in test_result.test_results.values() if v is not None]`
followed by `all(test_results_values) if test_results_values else False`.
Note that `'SKIPPED'` entries survive the filter and are truthy. -/
def overall_pass_of (results : String → PyVal) : Bool :=
  let vals := (test_ids_keys.map results).filter PyVal.nonNone
  if vals.isEmpty then false else vals.all PyVal.truthy

/-- Python substring test on character lists (`needle in hay`). -/
def listStartsWith : List Char → List Char → Bool
  | _, [] => true
  | [], _ :: _ => false
  | a :: as, b :: bs => a = b && listStartsWith as bs

/-- Python substring test on character lists (`needle in hay`), searching
at every position. -/
def listHasSub : List Char → List Char → Bool
  | [], needle => needle.isEmpty
  | a :: rest, needle => listStartsWith (a :: rest) needle || listHasSub rest needle

/-- Python's `needle in hay` on strings. -/
def py_in (needle hay : String) : Bool :=
  listHasSub hay.data needle.data

/-- Python's `s.strip().lower()`, as applied by `get_yes_no_input` to raw
operator input: drop whitespace at both ends, then lowercase. -/
def py_strip_lower (s : String) : String :=
  String.mk ((((s.data.dropWhile Char.isWhitespace).reverse.dropWhile
    Char.isWhitespace).reverse).map Char.toLower)

/-- Python's `s[:n]` slicing used for `output[:100]` in test details. -/
def py_take (s : String) (n : Nat) : String :=
  String.mk (s.data.take n)

/-- Observable events of one session attempt (ghost instrumentation):
a yes/no prompt shown to the operator, a press-Enter prompt, one SSH
connection attempt, one `exec_command` invocation, one `invoke_shell`
interactive invocation, and one row appended by `save_to_excel`. -/
inductive Event where
  | prompt_yn (question : String)
  | prompt_enter (text : String)
  | connect_attempt
  | exec_cmd (cmd : String)
  | exec_interactive (cmd : String)
  | save_row
  deriving DecidableEq, Repr

/-- Outcome of one `ssh_client.exec_command` interaction: either captured
stdout/stderr text, or a raised transport exception with message text. -/
inductive ExecOut where
  | ok (out err : String)
  | exc (msg : String)
  deriving DecidableEq, Repr

/-- Outcome of one `ssh_client.invoke_shell` interactive interaction:
either the drained output text, or a raised exception with message text. -/
inductive IExecOut where
  | iok (out : String)
  | iexc (msg : String)
  deriving DecidableEq, Repr

/-- Outcome of one `ampy ... put` upload of a single firmware support file:
the file is missing locally (skipped with a warning), uploaded fine,
rejected with a non-zero return code, or the subprocess raised. -/
inductive UpOut where
  | missing
  | ok
  | err
  | exc (msg : String)
  deriving DecidableEq, Repr

/-- Behaviour of the firmware-flashing collaborators consumed by
`upload_firmware_wipe` (volume polling, UF2 copying, UART discovery,
per-file `ampy` uploads), each collapsed to its observable outcome. -/
structure FwEnv where
  vol1 : Bool
  nukeOk : Bool
  gone1 : Bool
  vol2 : Bool
  mpOk : Bool
  uartFound : Bool
  uploads : String → UpOut

/-- The external world of one session attempt: oracle streams for every
collaborator, plus the ghost event trace. -/
structure World where
  stdin : List String
  clock : List Nat
  connects : List Bool
  execs : List ExecOut
  iexecs : List IExecOut
  fw : FwEnv
  trace : List Event

/-- Append a ghost event to the trace. -/
def World.addEvent (w : World) (e : Event) : World :=
  { w with trace := w.trace ++ [e] }

/-- One evaluation of `int(time.time() - start_time)`: reading the clock
never blocks, so an exhausted stream yields `0`. -/
def World.popClock (w : World) : Nat × World :=
  match w.clock with
  | [] => (0, w)
  | d :: rest => (d, { w with clock := rest })

/-- One SSH connection attempt (`paramiko.SSHClient().connect(...)`),
drawing its success/failure from the `connects` stream (an exhausted
stream fails). -/
def World.popConnect (w : World) : Bool × World :=
  match w.connects with
  | [] => (false, (w.addEvent .connect_attempt))
  | b :: rest => (b, ({ w with connects := rest }).addEvent .connect_attempt)

/-- One `exec_command` outcome from the `execs` stream (an exhausted
stream behaves like a command with empty output). -/
def World.popExec (w : World) : ExecOut × World :=
  match w.execs with
  | [] => (.ok "" "", w)
  | e :: rest => (e, { w with execs := rest })

/-- One `invoke_shell` interactive outcome from the `iexecs` stream. -/
def World.popIExec (w : World) : IExecOut × World :=
  match w.iexecs with
  | [] => (.iok "", w)
  | e :: rest => (e, { w with iexecs := rest })

/-- Function `wait_for_enter(prompt)`: one blocking `input()`.  On an
exhausted stdin stream the program would block forever, modelled as
`none`. -/
def wait_for_enter (text : String) (w : World) : Option World :=
  match w.stdin with
  | [] => none
  | _ :: rest => some ({ w with stdin := rest }.addEvent (.prompt_enter text))

/-- The read-loop of `get_yes_no_input` over raw stdin lines: `y`/`yes`
returns `True`; `n`/`no` with `allow_continue_check` set asks the
continue question on the next line and returns `None` (the restart
sentinel) unless that answer is `y`/`yes`, in which case (as without the
continue check) it returns `False`; any other line re-prompts. -/
def get_yes_no_loop (allow_continue_check : Bool) :
    List String → Option (Option Bool × List String)
  | [] => none
  | s :: rest =>
    let r := py_strip_lower s
    if r = "y" ∨ r = "yes" then some (some true, rest)
    else if r = "n" ∨ r = "no" then
      if allow_continue_check then
        match rest with
        | [] => none
        | c :: rest' =>
          let ct := py_strip_lower c
          if ct = "y" ∨ ct = "yes" then some (some false, rest')
          else some (none, rest')
      else some (some false, rest)
    else get_yes_no_loop allow_continue_check rest

/-- Function `get_yes_no_input(prompt, allow_continue_check)`: runs the
read-loop and returns the tri-state answer together with the elapsed
response time `int(time.time() - start_time)`. -/
def get_yes_no_input (question : String) (allow_continue_check : Bool)
    (w : World) : Option (Option Bool × Nat × World) :=
  match get_yes_no_loop allow_continue_check w.stdin with
  | none => none
  | some (res, rest) =>
    let w₁ := ({ w with stdin := rest }.addEvent (.prompt_yn question))
    some (res, (w₁.popClock).1, (w₁.popClock).2)

/-- Message text of the `AttributeError` Python raises when an SSH helper
is invoked with `ssh_client = None` (modelling constant; the exact text
only matters in that it does not contain the `SSH_ERROR` marker). -/
def none_client_msg : String := "NoneType object has no attribute"

/-- Function `ssh_execute_command(ssh_client, command)`: returns
`(output, error)` and never raises; any exception (including the
`AttributeError` on a `None` client) is converted to
`("", "SSH_ERROR: " + str(e))`. -/
def ssh_execute_command (ssh : Option Unit) (cmd : String) (w : World) :
    String × String × World :=
  let w₀ := w.addEvent (.exec_cmd cmd)
  match ssh with
  | none => ("", "SSH_ERROR: " ++ none_client_msg, w₀)
  | some _ =>
    match (w₀.popExec).1 with
    | .ok out err => (out, err, (w₀.popExec).2)
    | .exc msg => ("", "SSH_ERROR: " ++ msg, (w₀.popExec).2)

/-- Function `ssh_execute_interactive(ssh_client, command, ...)`: returns
`(output, "")` on success and `("", str(e))` on any exception — note the
missing `SSH_ERROR: ` marker, unlike `ssh_execute_command`. -/
def ssh_execute_interactive (ssh : Option Unit) (cmd : String) (w : World) :
    String × String × World :=
  let w₀ := w.addEvent (.exec_interactive cmd)
  match ssh with
  | none => ("", none_client_msg, w₀)
  | some _ =>
    match (w₀.popIExec).1 with
    | .iok out => (out, "", (w₀.popIExec).2)
    | .iexc msg => ("", msg, (w₀.popIExec).2)

/-- The retry loop of `reconnect_ssh`: `r` is the number of attempts still
available.  A failed attempt that is not the last one blocks on
`wait_for_enter` before retrying; a failed last attempt (or an exhausted
loop) yields no client. -/
def reconnect_go : Nat → World → Option (Option Unit × World)
  | 0, w => some (none, w)
  | r + 1, w =>
    let pc := w.popConnect
    if pc.1 then some (some (), pc.2)
    else if r = 0 then some (none, pc.2)
    else
      match wait_for_enter "Press Enter to retry SSH connection" pc.2 with
      | none => none
      | some w₂ => reconnect_go r w₂

/-- Function `reconnect_ssh(test_result, max_attempts=5)`: retry loop over
connection attempts (the `test_result` argument is unused by the source). -/
def reconnect_ssh (max_attempts : Nat) (w : World) : Option (Option Unit × World) :=
  reconnect_go max_attempts w

/-- The `PYTHON_FILES` list uploaded by `upload_firmware_wipe`. -/
def PYTHON_FILES : List String :=
  ["bin/loading1.bin", "bin/loading2.bin", "eink_driver_sam.py",
   "pamir_uart_protocols.py", "neopixel_controller.py", "power_manager.py",
   "battery.py", "debug_handler.py", "uart_handler.py",
   "threaded_task_manager.py", "main.py"]

/-- The per-file upload loop of `upload_firmware_wipe`: missing files are
skipped with a warning, and the first `ampy` failure or exception aborts
with the corresponding detail string (`none` means every file went
through). -/
def upload_files_loop (uploads : String → UpOut) : List String → Option String
  | [] => none
  | f :: rest =>
    match uploads f with
    | .missing => upload_files_loop uploads rest
    | .ok => upload_files_loop uploads rest
    | .err => some ("Failed to upload " ++ f)
    | .exc m => some ("Exception uploading " ++ f ++ ": " ++ m)

/-- Function `upload_firmware_wipe(test_result)`: walks the
bootloader-volume / flash-nuke / reflash / UART / file-upload chain,
records T01 with the failure detail and elapsed duration at the first
failing step (returning `False`), or records T01 as passed (returning
`True`).  The collaborator outcomes come from the `fw` oracle. -/
def upload_firmware_wipe (tr : TestResult) (w : World) : TestResult × Bool × World :=
  let fail := fun (detail : String) =>
    (tr.set_test_result "T01" (some false) detail (some (w.popClock).1),
      false, (w.popClock).2)
  if ¬w.fw.vol1 then fail "No RPI-RP2 volume found"
  else if ¬w.fw.nukeOk then fail "Flash nuke failed"
  else if ¬w.fw.gone1 then fail "Device did not disappear after flash nuke"
  else if ¬w.fw.vol2 then fail "Device did not reappear after flash nuke"
  else if ¬w.fw.mpOk then fail "MicroPython firmware flash failed"
  else if ¬w.fw.uartFound then fail "No UART port found"
  else
    match upload_files_loop w.fw.uploads PYTHON_FILES with
    | some detail => fail detail
    | none =>
      (tr.set_test_result "T01" (some true) "All files uploaded successfully"
        (some (w.popClock).1), true, (w.popClock).2)

/-- The reconnect-and-retry pattern wrapped around the plain SSH commands
of `perform_ssh_tests` (`lsusb`, `lsblk`, `libcamera-hello`): run the
command; if the returned error text carries the `SSH_ERROR` marker, make
one `reconnect_ssh` call and, when it yields a client, run the same
command once more; a failed reconnect leaves the original (failed) output
and error in place with no client. -/
def exec_with_retry (ssh : Option Unit) (cmd : String) (w : World) :
    Option (Option Unit × String × String × World) :=
  let ex := ssh_execute_command ssh cmd w
  if py_in "SSH_ERROR" ex.2.1 then
    match reconnect_ssh 5 ex.2.2 with
    | none => none
    | some (some c, w₂) =>
      let ex₂ := ssh_execute_command (some c) cmd w₂
      some (some c, ex₂.1, ex₂.2.1, ex₂.2.2)
    | some (none, w₂) => some (none, ex.1, ex.2.1, w₂)
  else some (ssh, ex.1, ex.2.1, ex.2.2)

/-- One guarded marker-test record of the `lsusb` section: when `tid` is
selected, record `res` with detail `det` and the elapsed duration. -/
def guarded_set (tid : String) (res : Option Bool) (det : String)
    (s : TestResult × World) : TestResult × World :=
  if tid ∈ s.1.tests_to_run then
    (s.1.set_test_result tid res det (some (s.2.popClock).1), (s.2.popClock).2)
  else s

/-- The `lsusb` section of `perform_ssh_tests`: one (possibly retried)
`lsusb`, then T09/T10/T11 are judged by marker substrings of the captured
output when selected. -/
def usb_checks (tr : TestResult) (ssh : Option Unit) (w : World) :
    Option (Option Unit × TestResult × World) :=
  match exec_with_retry ssh "lsusb" w with
  | none => none
  | some (ssh₁, out, _err, w₁) =>
    let s11 :=
      guarded_set "T11"
        (some (py_in "Microchip Technology, Inc. (formerly SMSC) Ultra Fast Media" out)) ""
        (guarded_set "T10" (some (py_in "QinHeng Electronics USB HUB" out)) ""
          (guarded_set "T09" (some (py_in "MicroPython Board in FS mode" out))
            ("lsusb output: " ++ py_take out 100 ++ "...") (tr, w₁)))
    some (ssh₁, s11.1, s11.2)

/-- Path of the interactive RGB LED demo on the target. -/
def RGB_LED_TEST_PATH : String :=
  "/opt/distiller-cm5-sdk/src/distiller_cm5_sdk/hardware/sam/led_interactive_demo.py"

/-- The existence probe run before the RGB LED demo. -/
def rgb_check_cmd : String :=
  "test -f " ++ RGB_LED_TEST_PATH ++ " && echo 'EXISTS' || echo 'NOT_FOUND'"

/-- The interactive RGB LED demo invocation. -/
def rgb_run_cmd : String := "python3 " ++ RGB_LED_TEST_PATH

/-- The visual-confirmation question asked for T12. -/
def rgb_question : String := "Did you see the RGB LED cycle through different colors?"

/-- The T12 section of `perform_ssh_tests`: probe for the script, run the
interactive demo (with the marker-guarded reconnect branch of the source,
which tests the interactive error text against `SSH_ERROR`), then ask the
operator with `allow_continue_check=False` and record the answer. -/
def rgb_led_ssh_test (tr : TestResult) (ssh : Option Unit) (w : World) :
    Option (Option Unit × TestResult × World) :=
  if "T12" ∈ tr.tests_to_run then
    let chk := ssh_execute_command ssh rgb_check_cmd w
    if py_in "NOT_FOUND" chk.1 then
      some (ssh, tr.set_test_result "T12" (some false) "Script not found"
        (some (chk.2.2.popClock).1), (chk.2.2.popClock).2)
    else
      let ir := ssh_execute_interactive ssh rgb_run_cmd chk.2.2
      let retried : Option (Option Unit × String × String × World) :=
        if py_in "SSH_ERROR" ir.2.1 then
          match reconnect_ssh 5 ir.2.2 with
          | none => none
          | some (some c, w₃) =>
            let ir₂ := ssh_execute_interactive (some c) rgb_run_cmd w₃
            some (some c, ir₂.1, ir₂.2.1, ir₂.2.2)
          | some (none, w₃) => some (none, ir.1, ir.2.1, w₃)
        else some (ssh, ir.1, ir.2.1, ir.2.2)
      match retried with
      | none => none
      | some (ssh₂, _, _, w₅) =>
        match get_yes_no_input rgb_question false w₅ with
        | none => none
        | some (res, _qd, w₆) =>
          some (ssh₂, tr.set_test_result "T12" res "" (some (w₆.popClock).1),
            (w₆.popClock).2)
  else some (ssh, tr, w)

/-- Tail of the T13 section: `if ssh and "SSH_ERROR" not in error:` guards
the actual `sda1` marker check. -/
def sd_card_finish (tr : TestResult) (ssh : Option Unit) (out err : String)
    (w : World) : Option (Option Unit × TestResult × World) :=
  if ssh.isSome && !(py_in "SSH_ERROR" err) then
    some (ssh, tr.set_test_result "T13" (some (py_in "sda1" out))
      ("lsblk output: " ++ py_take out 100 ++ "...") (some (w.popClock).1),
      (w.popClock).2)
  else some (ssh, tr, w)

/-- The T13 section of `perform_ssh_tests`: `lsblk` with the inline
reconnect branch (a failed reconnect records T13 as failed with
"SSH reconnection failed"), then the guarded marker check. -/
def sd_card_check (tr : TestResult) (ssh : Option Unit) (w : World) :
    Option (Option Unit × TestResult × World) :=
  if "T13" ∈ tr.tests_to_run then
    let ex := ssh_execute_command ssh "lsblk" w
    if py_in "SSH_ERROR" ex.2.1 then
      match reconnect_ssh 5 ex.2.2 with
      | none => none
      | some (some c, w₂) =>
        let ex₂ := ssh_execute_command (some c) "lsblk" w₂
        sd_card_finish tr (some c) ex₂.1 ex₂.2.1 ex₂.2.2
      | some (none, w₂) =>
        sd_card_finish
          (tr.set_test_result "T13" (some false) "SSH reconnection failed"
            (some (w₂.popClock).1))
          none ex.1 ex.2.1 (w₂.popClock).2
    else sd_card_finish tr ssh ex.1 ex.2.1 ex.2.2
  else some (ssh, tr, w)

/-- Tail of the T14 section: the guarded camera check (pass iff the error
text lacks the "no cameras available" marker). -/
def camera_finish (tr : TestResult) (ssh : Option Unit) (err : String)
    (w : World) : Option (Option Unit × TestResult × World) :=
  if ssh.isSome && !(py_in "SSH_ERROR" err) then
    some (ssh, tr.set_test_result "T14"
      (some (!(py_in "ERROR: *** no cameras available ***" err)))
      (if err ≠ "" then py_take err 100 else "Camera OK") (some (w.popClock).1),
      (w.popClock).2)
  else some (ssh, tr, w)

/-- The T14 section of `perform_ssh_tests`: `libcamera-hello` with the
inline reconnect branch, then the guarded camera check. -/
def camera_check (tr : TestResult) (ssh : Option Unit) (w : World) :
    Option (Option Unit × TestResult × World) :=
  if "T14" ∈ tr.tests_to_run then
    let ex := ssh_execute_command ssh "libcamera-hello" w
    if py_in "SSH_ERROR" ex.2.1 then
      match reconnect_ssh 5 ex.2.2 with
      | none => none
      | some (some c, w₂) =>
        let ex₂ := ssh_execute_command (some c) "libcamera-hello" w₂
        camera_finish tr (some c) ex₂.2.1 ex₂.2.2
      | some (none, w₂) =>
        camera_finish
          (tr.set_test_result "T14" (some false) "SSH reconnection failed"
            (some (w₂.popClock).1))
          none ex.2.1 (w₂.popClock).2
    else camera_finish tr ssh ex.2.1 ex.2.2
  else some (ssh, tr, w)

/-- The ids of the SSH-driven remote-check group. -/
def ssh_test_ids : List String := ["T09", "T10", "T11", "T12", "T13", "T14"]

/-- One iteration of the marking loop run when the initial SSH connection
fails: a selected remote-check test is recorded as failed with detail
"SSH connection failed" and duration `0`. -/
def mark_step (acc : TestResult) (tid : String) : TestResult :=
  if tid ∈ acc.tests_to_run then
    acc.set_test_result tid (some false) "SSH connection failed" (some 0)
  else acc

/-- The marking loop run when the initial SSH connection fails: every
selected remote-check test is recorded as failed with detail
"SSH connection failed" and duration `0`. -/
def mark_ssh_failed (tr : TestResult) : TestResult :=
  ssh_test_ids.foldl mark_step tr

/-- Function `perform_ssh_tests(test_result)`: an initial `reconnect_ssh`;
on failure the note is appended, every selected remote test is marked
failed and `False` is returned; otherwise the four sections run in order
and `True` is returned. -/
def perform_ssh_tests (tr : TestResult) (w : World) : Option (TestResult × Bool × World) :=
  match reconnect_ssh 5 w with
  | none => none
  | some (none, w₁) =>
    some (mark_ssh_failed
      { tr with notes := tr.notes ++ " Initial SSH connection failed after 5 attempts." },
      false, w₁)
  | some (some c, w₁) =>
    match usb_checks tr (some c) w₁ with
    | none => none
    | some (ssh₂, tr₂, w₂) =>
      match rgb_led_ssh_test tr₂ ssh₂ w₂ with
      | none => none
      | some (ssh₃, tr₃, w₃) =>
        match sd_card_check tr₃ ssh₃ w₃ with
        | none => none
        | some (ssh₄, tr₄, w₄) =>
          match camera_check tr₄ ssh₄ w₄ with
          | none => none
          | some (_, tr₅, w₅) => some (tr₅, true, w₅)

/-- Function `save_to_excel(test_result)` restricted to its
ledger-relevant semantics: computes and stores `overall_pass` and appends
one row to the report store (the spreadsheet formatting is out of scope).
The ghost `save_row` event records that a row was appended. -/
def save_to_excel (tr : TestResult) (w : World) : TestResult × World :=
  ({ tr with overall_pass := overall_pass_of tr.test_results },
    w.addEvent .save_row)

/-- Outcome of one attempt of the main loop: the ledger as last passed to
`save_to_excel`, whether the `restart_test` flag was set (the operator
answered "stop" at a continue prompt), and whether the attempt ended in
`continue` (back to test selection) rather than falling through to the
end-of-attempt questions. -/
structure SessionOutcome where
  led : TestResult
  restartFlag : Bool
  looped : Bool

/-- Intermediate control flow of the visual/UI steps: either proceed with
the updated ledger, or propagate the operator's restart request. -/
inductive Step where
  | next (tr : TestResult) (w : World)
  | halt (tr : TestResult) (w : World)

/-- One visual or UI yes/no test block of `main`: skipped when not
selected; otherwise the operator is asked, a `None` answer requests a
restart, and any boolean answer is recorded with its duration. -/
def visual_step (tid question : String) (tr : TestResult) (w : World) : Option Step :=
  if tid ∈ tr.tests_to_run then
    match get_yes_no_input question true w with
    | none => none
    | some (none, _d, w₁) => some (.halt tr w₁)
    | some (some b, d, w₁) =>
      some (.next (tr.set_test_result tid (some b) "" (some d)) w₁)
  else some (.next tr w)

/-- Question texts of the visual and UI test prompts in `main`. -/
def q_T02 : String := "Does the CM5 LED light up?"

/-- Question text of the T03 prompt. -/
def q_T03 : String := "Does the RGB LED light up?"

/-- Question text of the T04 prompt. -/
def q_T04 : String := "Does the e-ink bootup screen appear?"

/-- Question text of the T05 prompt. -/
def q_T05 : String := "Wait for WIFI UI to show up. Does the WIFI UI appear?"

/-- Question text of the T06 prompt. -/
def q_T06 : String := "Press a button. Does the button show on dmesg?"

/-- Question text of the T07 prompt. -/
def q_T07 : String := "Was your voice successfully transcribed?"

/-- The T06/T07 tail of the UI group, reached only when the UI appeared or
T05 was not selected. -/
def ui_tail (tr : TestResult) (w : World) : Option Step :=
  match visual_step "T06" q_T06 tr w with
  | none => none
  | some (.halt tr₁ w₁) => some (.halt tr₁ w₁)
  | some (.next tr₁ w₁) => visual_step "T07" q_T07 tr₁ w₁

/-- The UI group of `main` (step 4): `ui_appears` starts `False`; when T05
is selected its answer is recorded and becomes `ui_appears`; T06/T07 run
only when `ui_appears` holds or T05 was not selected. -/
def ui_group (tr : TestResult) (w : World) : Option Step :=
  if "T05" ∈ tr.tests_to_run then
    match get_yes_no_input q_T05 true w with
    | none => none
    | some (none, _d, w₁) => some (.halt tr w₁)
    | some (some b, d, w₁) =>
      let tr₁ := tr.set_test_result "T05" (some b) "" (some d)
      if b then ui_tail tr₁ w₁ else some (.next tr₁ w₁)
  else ui_tail tr w

/-- The tests requiring hardware assembly before the visual checks. -/
def hardware_test_ids : List String := ["T02", "T03", "T04", "T05", "T06", "T07"]

/-- Prompt text shown before the firmware upload. -/
def bootloader_text : String := "Put the board into bootloader mode and connect to computer."

/-- Prompt text shown before hardware assembly. -/
def assembly_text : String :=
  "Unplug the board and insert: battery, camera module, e-ink display, SD card, and CM5."

/-- Exit of a restart path of `main`: `restart_test = True`, then
`save_to_excel`, then `continue`. -/
def exit_restart (tr : TestResult) (w : World) : Option (SessionOutcome × World) :=
  some ({ led := (save_to_excel tr w).1, restartFlag := true, looped := true },
    (save_to_excel tr w).2)

/-- Exit of the normal completion path of `main`: `save_to_excel`, then
the end-of-attempt summary. -/
def exit_normal (tr : TestResult) (w : World) : Option (SessionOutcome × World) :=
  some ({ led := (save_to_excel tr w).1, restartFlag := false, looped := false },
    (save_to_excel tr w).2)

/-- Exit of the firmware-failure path of `main`: the note is assigned,
`save_to_excel` runs, and the loop continues (without the restart flag). -/
def exit_fw_failed (tr : TestResult) (w : World) : Option (SessionOutcome × World) :=
  some ({ led := (save_to_excel { tr with notes := "Firmware upload failed" } w).1,
          restartFlag := false, looped := true },
    (save_to_excel { tr with notes := "Firmware upload failed" } w).2)

/-- Sequencing of a visual/UI step with the rest of the attempt: a
propagated restart request exits by way of `exit_restart`. -/
def step_then (s : Option Step)
    (k : TestResult → World → Option (SessionOutcome × World)) :
    Option (SessionOutcome × World) :=
  match s with
  | none => none
  | some (.halt tr w) => exit_restart tr w
  | some (.next tr w) => k tr w

/-- Steps 5–6 of `main`: the SSH group (when any remote test is selected,
with the "SSH tests incomplete." note on failure) followed by
`save_to_excel`. -/
def ssh_then_save (tr : TestResult) (w : World) : Option (SessionOutcome × World) :=
  if ssh_test_ids.any (fun t => decide (t ∈ tr.tests_to_run)) then
    match perform_ssh_tests tr w with
    | none => none
    | some (tr₁, ok, w₁) =>
      if ok then exit_normal tr₁ w₁
      else exit_normal { tr₁ with notes := tr₁.notes ++ " SSH tests incomplete." } w₁
  else exit_normal tr w

/-- Steps 2–6 of `main`, after the firmware step: hardware-assembly
prompt, the three visual checks, the UI group, then the SSH group and the
save. -/
def after_firmware (tr : TestResult) (w : World) : Option (SessionOutcome × World) :=
  let w? :=
    if hardware_test_ids.any (fun t => decide (t ∈ tr.tests_to_run)) then
      wait_for_enter assembly_text w
    else some w
  match w? with
  | none => none
  | some w₁ =>
    step_then (visual_step "T02" q_T02 tr w₁) fun tr w =>
    step_then (visual_step "T03" q_T03 tr w) fun tr w =>
    step_then (visual_step "T04" q_T04 tr w) fun tr w =>
    step_then (ui_group tr w) fun tr w =>
    ssh_then_save tr w

/-- One attempt of the main testing loop (`main`, lines after test
selection and device-id entry): the firmware step when T01 is selected
(aborting to finalize on failure), then the remaining groups. -/
def run_session (device_id : Nat) (tests_to_run : List String) (w : World) :
    Option (SessionOutcome × World) :=
  let tr := TestResult.init device_id tests_to_run
  if "T01" ∈ tr.tests_to_run then
    match wait_for_enter bootloader_text w with
    | none => none
    | some w₁ =>
      let fw := upload_firmware_wipe tr w₁
      if fw.2.1 then after_firmware fw.1 fw.2.2
      else exit_fw_failed fw.1 fw.2.2
  else after_firmware tr w

/-- Ledger preservation: between `tr` and `tr'`, every test id that is
outside `written` or outside the selection keeps its status and duration,
the selection is unchanged, and the log only grew. -/
def LedgerPres (written : List String) (tr tr' : TestResult) : Prop :=
  (∀ id, (id ∉ written ∨ id ∉ tr.tests_to_run) →
      tr'.test_results id = tr.test_results id ∧
      tr'.test_durations id = tr.test_durations id) ∧
  tr'.tests_to_run = tr.tests_to_run ∧
  ∃ ext, tr'.log = tr.log ++ ext

/-- Between two worlds the trace grew by events all satisfying `P`. -/
def TraceAdds (P : Event → Prop) (w w' : World) : Prop :=
  ∃ t, w'.trace = w.trace ++ t ∧ ∀ e ∈ t, P e

/-- An event that is not a yes/no prompt. -/
def NonPrompt (e : Event) : Prop :=
  ∀ q, e ≠ Event.prompt_yn q

/-- An event that is not a yes/no prompt outside the T12 question. -/
def RgbPromptOnly (e : Event) : Prop :=
  ∀ q, e = Event.prompt_yn q → q = rgb_question

/-- The six questions whose "no" answer opens the continue prompt (every
visual and UI test; T12's question is asked with the continue check off). -/
def continue_questions : List String := [q_T02, q_T03, q_T04, q_T05, q_T06, q_T07]

/-- Recognizer for a prompt event belonging to `continue_questions`. -/
def continue_prompt_event (e : Event) : Bool :=
  match e with
  | .prompt_yn q => decide (q ∈ continue_questions)
  | _ => false

/-- Every test id that the steps after the firmware step may write. -/
def session_written : List String :=
  ["T02", "T03", "T04", "T05", "T06", "T07"] ++ ssh_test_ids

/-- Firmware collaborators that all succeed. -/
def fw_all_ok : FwEnv := ⟨true, true, true, true, true, true, fun _ => .ok⟩

/-- Firmware collaborators where the flash-nuke copy fails. -/
def fw_nuke_fail : FwEnv := ⟨true, false, true, true, true, true, fun _ => .ok⟩

/-- World constructor with an empty ghost trace. -/
def mkWorld (stdin : List String) (clock : List Nat) (connects : List Bool)
    (execs : List ExecOut) (iexecs : List IExecOut) (fw : FwEnv) : World :=
  ⟨stdin, clock, connects, execs, iexecs, fw, []⟩

/-- Fallback session outcome used to name concrete run results. -/
def dummy_out : SessionOutcome × World :=
  (⟨TestResult.init 0 [], false, false⟩, mkWorld [] [] [] [] [] fw_all_ok)

/-- Fallback SSH-section result used to name concrete run results. -/
def dummy_trip : Option Unit × TestResult × World :=
  (none, TestResult.init 0 [], mkWorld [] [] [] [] [] fw_all_ok)

/-- Fallback `perform_ssh_tests` result used to name concrete run results. -/
def dummy_ssh : TestResult × Bool × World :=
  (TestResult.init 0 [], false, mkWorld [] [] [] [] [] fw_all_ok)

/-- World of the empty-selection finalization run. -/
def c1_world : World := mkWorld [] [] [] [] [] fw_all_ok

/-- Result of finalizing a session in which every catalog test is skipped. -/
def c1_pair : SessionOutcome × World := (run_session 1 [] c1_world).getD dummy_out

/-- World of the "No then Stop at T02" run (assembly Enter, answer `n`,
decline to continue with `n`). -/
def c2_world : World := mkWorld ["", "n", "n"] [3] [] [] [] fw_all_ok

/-- Result of the "No then Stop at T02" run. -/
def c2_pair : SessionOutcome × World := (run_session 1 ["T02"] c2_world).getD dummy_out

/-- World of a second "No then Stop at T02" run (declining with a
non-yes answer). -/
def c2w_world : World := mkWorld ["", "n", "x"] [3] [] [] [] fw_all_ok

/-- Result of the second "No then Stop at T02" run. -/
def c2w_pair : SessionOutcome × World := (run_session 1 ["T02"] c2w_world).getD dummy_out

/-- Selection of the single-visual-test run used as the C4 witness. -/
def c4_sel : List String := ["T02"]

/-- World of the single-visual-test run used as the C4 witness. -/
def c4_world : World := mkWorld ["", "y"] [4] [] [] [] fw_all_ok

/-- Result of the single-visual-test run used as the C4 witness. -/
def c4_pair : SessionOutcome × World := (run_session 1 c4_sel c4_world).getD dummy_out

/-- Ledger of the T12 transport-error run. -/
def c5_tr : TestResult := TestResult.init 1 ["T12"]

/-- World of the T12 transport-error run: the existence probe succeeds and
the interactive demo raises a transport exception whose text lacks the
`SSH_ERROR` marker. -/
def c5_world : World :=
  mkWorld ["y"] [5, 9] [] [.ok "EXISTS" ""] [.iexc "Socket is closed"] fw_all_ok

/-- Result of the T12 transport-error run. -/
def c5_trip : Option Unit × TestResult × World :=
  (rgb_led_ssh_test c5_tr (some ()) c5_world).getD dummy_trip

/-- Ledger of the mid-group connection-failure run. -/
def c6_tr : TestResult := TestResult.init 1 ["T09", "T13"]

/-- World of the mid-group connection-failure run: the initial connection
succeeds, `lsusb` raises, the five-attempt reconnect is exhausted, and the
reconnect made later for T13 succeeds with `sda1` present. -/
def c6_world : World :=
  mkWorld ["", "", "", ""] [1, 2, 3]
    [true, false, false, false, false, false, true]
    [.exc "boom", .ok "sda1 part" ""] [] fw_all_ok

/-- Result of the mid-group connection-failure run. -/
def c6_trip : TestResult × Bool × World :=
  (perform_ssh_tests c6_tr c6_world).getD dummy_ssh

/-- World of the initial-connection-failure run: all five attempts fail. -/
def c6w_world : World :=
  mkWorld ["", "", "", ""] [] [false, false, false, false, false] [] [] fw_all_ok

/-- Result of the initial-connection-failure run. -/
def c6w_trip : TestResult × Bool × World :=
  (perform_ssh_tests c6_tr c6w_world).getD dummy_ssh

/-- Selection of the "T05 fails, T06 selected" run. -/
def c7_sel : List String := ["T05", "T06"]

/-- World of the "T05 fails, T06 selected" run (assembly Enter, answer
`n` to T05, continue with `y`). -/
def c7_world : World := mkWorld ["", "n", "y"] [4] [] [] [] fw_all_ok

/-- Result of the "T05 fails, T06 selected" run. -/
def c7_pair : SessionOutcome × World := (run_session 1 c7_sel c7_world).getD dummy_out

/-- World of the "flash nuke fails" firmware run. -/
def c8_world : World := mkWorld [""] [7] [] [] [] fw_nuke_fail

/-- Result of the "flash nuke fails" firmware run. -/
def c8_pair : SessionOutcome × World := (run_session 1 ["T01"] c8_world).getD dummy_out

/-- World whose next `exec_command` raises a transport exception. -/
def c9_world : World := mkWorld [] [] [] [.exc "boom"] [] fw_all_ok

/-- World answering `y` to a prompt asked with the continue check off. -/
def c10_world : World := mkWorld ["y"] [2] [] [] [] fw_all_ok

/-- Result of the continue-check-off prompt on `c10_world`. -/
def c10_trip : Option Bool × Nat × World :=
  (get_yes_no_input rgb_question false c10_world).getD
    (none, 0, mkWorld [] [] [] [] [] fw_all_ok)

/-- World of the "No then Stop at T03" run used for restart attribution. -/
def c10b_world : World := mkWorld ["", "n", "n"] [3] [] [] [] fw_all_ok

/-- Result of the "No then Stop at T03" run. -/
def c10b_pair : SessionOutcome × World :=
  (run_session 1 ["T03"] c10b_world).getD dummy_out

theorem set_results_self (tr : TestResult) (t : String) (r : Option Bool)
    (det : String) (d : Option Nat) :
    (tr.set_test_result t r det d).test_results t = PyVal.ofResult r := by
  simp [TestResult.set_test_result]

theorem set_results_other (tr : TestResult) {id t : String} (r : Option Bool)
    (det : String) (d : Option Nat) (h : id ≠ t) :
    (tr.set_test_result t r det d).test_results id = tr.test_results id := by
  simp [TestResult.set_test_result, h]

theorem set_durations_other (tr : TestResult) {id t : String} (r : Option Bool)
    (det : String) (d : Option Nat) (h : id ≠ t) :
    (tr.set_test_result t r det d).test_durations id = tr.test_durations id := by
  cases d <;> simp [TestResult.set_test_result, h]

theorem set_run_eq (tr : TestResult) (t : String) (r : Option Bool)
    (det : String) (d : Option Nat) :
    (tr.set_test_result t r det d).tests_to_run = tr.tests_to_run := rfl

theorem set_log_eq (tr : TestResult) (t : String) (r : Option Bool)
    (det : String) (d : Option Nat) :
    (tr.set_test_result t r det d).log = tr.log ++ [⟨t, r, det, d⟩] := rfl

theorem listStartsWith_append (l t : List Char) : listStartsWith (l ++ t) l = true := by
  induction l with
  | nil => cases t <;> simp [listStartsWith]
  | cons a as ih => simp [listStartsWith, ih]

theorem listHasSub_of_starts (hay needle : List Char)
    (h : listStartsWith hay needle = true) : listHasSub hay needle = true := by
  cases hay with
  | nil =>
    cases needle with
    | nil => rfl
    | cons b bs => simp [listStartsWith] at h
  | cons a rest => simp [listHasSub, h]

theorem py_in_self_append (pre m : String) : py_in pre (pre ++ m) = true := by
  unfold py_in
  rw [String.data_append]
  exact listHasSub_of_starts _ _ (listStartsWith_append pre.data m.data)

theorem ssh_error_marker (m : String) : py_in "SSH_ERROR" ("SSH_ERROR: " ++ m) = true := by
  unfold py_in
  rw [String.data_append]
  have h : ("SSH_ERROR: ").data = "SSH_ERROR".data ++ ": ".data := by decide
  rw [h, List.append_assoc]
  exact listHasSub_of_starts _ _ (listStartsWith_append _ _)

theorem all_filter_truthy (r : String → PyVal) : ∀ (l : List String),
    ((l.map r).filter PyVal.nonNone).all PyVal.truthy
      = l.all (fun id => !(r id).isFail)
  | [] => rfl
  | a :: l => by
    cases h : r a <;>
      simp [h, PyVal.nonNone, PyVal.truthy, PyVal.isFail, all_filter_truthy r l]

theorem isEmpty_filter_unset (r : String → PyVal) : ∀ (l : List String),
    ((l.map r).filter PyVal.nonNone).isEmpty
      = !(l.any fun id => (r id).nonNone)
  | [] => rfl
  | a :: l => by
    cases h : r a <;>
      simp [h, PyVal.nonNone, isEmpty_filter_unset r l]

theorem overall_pass_of_eq (r : String → PyVal) :
    overall_pass_of r
      = ((test_ids_keys.any fun id => (r id).nonNone)
          && test_ids_keys.all fun id => !(r id).isFail) := by
  simp only [overall_pass_of]
  rw [isEmpty_filter_unset, all_filter_truthy]
  cases hany : test_ids_keys.any fun id => (r id).nonNone <;> simp [hany]

/-- C1: the claim is false on the code — a session in which every catalog
test is skipped (empty selection) finalizes with `overall_pass = true`,
because the `'SKIPPED'` strings survive the `is not None` filter and are
truthy, so the guarded `all(...)` sees a non-empty all-truthy list. -/
theorem C1_counterexample :
    run_session 1 [] c1_world = some c1_pair ∧ c1_pair.1.led.overall_pass = true :=
  ⟨rfl, rfl⟩

/-- C1 (amended): `overall_pass` is true iff at least one catalog entry is
non-Unset (recorded or Skipped) and no entry is Fail; Skipped entries
count as truthy and Unset (`None`) entries are excluded, so an all-Skipped
ledger finalizes with `overall_pass = true`, and `overall_pass = false`
exactly when some test is Fail or every catalog test is still Unset. -/
theorem C1_overall_pass_theorem (r : String → PyVal) :
    overall_pass_of r
      = ((test_ids_keys.any fun id => (r id).nonNone)
          && test_ids_keys.all fun id => !(r id).isFail) :=
  overall_pass_of_eq r

/-- C3: the claim is false on the code — `set_test_result` has no
precondition: recording T02 as Pass and then again as Fail silently
overwrites the terminal Pass (and its duration) with no rejection or
flag. -/
theorem C3_counterexample :
    ((TestResult.init 1 ["T02"]).set_test_result "T02" (some true) "" (some 1)).test_results
        "T02" = PyVal.pyTrue
  ∧ (((TestResult.init 1 ["T02"]).set_test_result "T02" (some true) "" (some 1)).set_test_result
        "T02" (some false) "" (some 2)).test_results "T02" = PyVal.pyFalse
  ∧ (((TestResult.init 1 ["T02"]).set_test_result "T02" (some true) "" (some 1)).set_test_result
        "T02" (some false) "" (some 2)).test_durations "T02" = some 2 :=
  ⟨rfl, rfl, rfl⟩

/-- C3 (amended): `set_test_result` applies unconditionally — a second
record of the same test id stores the second result regardless of the
first (terminal or not), and both calls append their log lines; nothing
is rejected or flagged. -/
theorem C3_record_overwrites_theorem (tr : TestResult) (t : String)
    (r₁ r₂ : Option Bool) (det₁ det₂ : String) (d₁ d₂ : Option Nat) :
    ((tr.set_test_result t r₁ det₁ d₁).set_test_result t r₂ det₂ d₂).test_results t
        = PyVal.ofResult r₂
  ∧ ((tr.set_test_result t r₁ det₁ d₁).set_test_result t r₂ det₂ d₂).log
        = tr.log ++ [⟨t, r₁, det₁, d₁⟩, ⟨t, r₂, det₂, d₂⟩] := by
  refine ⟨by simp [TestResult.set_test_result], ?_⟩
  simp [TestResult.set_test_result]

/-- C9: `ssh_execute_command` converts any raised exception into the pair
`("", "SSH_ERROR: " + str(e))`, so a transport failure is detectable by
the caller through the `SSH_ERROR` marker in the error text (and the call
itself never raises: the embedding is a total function). -/
theorem C9_ssh_error_marker_theorem (cmd m : String) (rest : List ExecOut)
    (w : World) (h : w.execs = ExecOut.exc m :: rest) :
    (ssh_execute_command (some ()) cmd w).1 = ""
  ∧ (ssh_execute_command (some ()) cmd w).2.1 = "SSH_ERROR: " ++ m
  ∧ py_in "SSH_ERROR" (ssh_execute_command (some ()) cmd w).2.1 = true := by
  simp [ssh_execute_command, World.addEvent, World.popExec, h, ssh_error_marker]

/-- C9 witness: a concrete raised transport exception with text "boom". -/
theorem C9_witness :
    (ssh_execute_command (some ()) "lsusb" c9_world).1 = ""
  ∧ (ssh_execute_command (some ()) "lsusb" c9_world).2.1 = "SSH_ERROR: " ++ "boom"
  ∧ py_in "SSH_ERROR" (ssh_execute_command (some ()) "lsusb" c9_world).2.1 = true :=
  C9_ssh_error_marker_theorem "lsusb" "boom" [] c9_world rfl

theorem LedgerPres.here (written : List String) (tr : TestResult) :
    LedgerPres written tr tr :=
  ⟨fun _ _ => ⟨rfl, rfl⟩, rfl, [], (List.append_nil _).symm⟩

theorem LedgerPres.across {written : List String} {tr tr' tr'' : TestResult}
    (h₁ : LedgerPres written tr tr') (h₂ : LedgerPres written tr' tr'') :
    LedgerPres written tr tr'' := by
  obtain ⟨p₁, r₁, e₁, he₁⟩ := h₁
  obtain ⟨p₂, r₂, e₂, he₂⟩ := h₂
  refine ⟨?_, r₂.trans r₁, e₁ ++ e₂, by rw [he₂, he₁, List.append_assoc]⟩
  intro id hid
  have hid' : id ∉ written ∨ id ∉ tr'.tests_to_run := by
    rcases hid with h | h
    · exact Or.inl h
    · exact Or.inr (by rw [r₁]; exact h)
  obtain ⟨a₂, b₂⟩ := p₂ id hid'
  obtain ⟨a₁, b₁⟩ := p₁ id hid
  exact ⟨a₂.trans a₁, b₂.trans b₁⟩

theorem LedgerPres.set {written : List String} {tr : TestResult} (t : String)
    (r : Option Bool) (det : String) (d : Option Nat)
    (hW : t ∈ written) (hR : t ∈ tr.tests_to_run) :
    LedgerPres written tr (tr.set_test_result t r det d) := by
  refine ⟨?_, rfl, [⟨t, r, det, d⟩], rfl⟩
  intro id hid
  have hne : id ≠ t := by
    rcases hid with h | h
    · exact fun e => h (e ▸ hW)
    · exact fun e => h (e ▸ hR)
  exact ⟨set_results_other tr r det d hne, set_durations_other tr r det d hne⟩

theorem LedgerPres.widen {written written' : List String} {tr tr' : TestResult}
    (hsub : ∀ x, x ∈ written → x ∈ written') (h : LedgerPres written tr tr') :
    LedgerPres written' tr tr' := by
  obtain ⟨p, r, ext, he⟩ := h
  refine ⟨?_, r, ext, he⟩
  intro id hid
  apply p id
  rcases hid with h | h
  · exact Or.inl fun hx => h (hsub _ hx)
  · exact Or.inr h

theorem TraceAdds.refl (P : Event → Prop) (w : World) : TraceAdds P w w :=
  ⟨[], by simp, by simp⟩

theorem TraceAdds.trans {P : Event → Prop} {w w₁ w₂ : World}
    (h₁ : TraceAdds P w w₁) (h₂ : TraceAdds P w₁ w₂) : TraceAdds P w w₂ := by
  obtain ⟨t₁, e₁, a₁⟩ := h₁
  obtain ⟨t₂, e₂, a₂⟩ := h₂
  refine ⟨t₁ ++ t₂, by rw [e₂, e₁, List.append_assoc], ?_⟩
  intro e he
  rcases List.mem_append.1 he with h | h
  exacts [a₁ e h, a₂ e h]

theorem TraceAdds.mono {P Q : Event → Prop} {w w' : World}
    (h : ∀ e, P e → Q e) (ht : TraceAdds P w w') : TraceAdds Q w w' := by
  obtain ⟨t, e₁, a₁⟩ := ht
  exact ⟨t, e₁, fun e he => h e (a₁ e he)⟩

theorem TraceAdds.mem {P : Event → Prop} {w w' : World}
    (h : TraceAdds P w w') {e : Event} (he : e ∈ w.trace) : e ∈ w'.trace := by
  obtain ⟨t, e₁, _⟩ := h
  rw [e₁]
  exact List.mem_append.2 (Or.inl he)

theorem TraceAdds.not_new {P : Event → Prop} {w w' : World}
    (h : TraceAdds P w w') {e : Event} (hP : ¬ P e) :
    e ∈ w'.trace ↔ e ∈ w.trace := by
  obtain ⟨t, e₁, a₁⟩ := h
  rw [e₁, List.mem_append]
  constructor
  · rintro (hm | hm)
    · exact hm
    · exact absurd (a₁ e hm) hP
  · exact Or.inl

theorem TraceAdds.any_mono {P : Event → Prop} {w w' : World}
    (h : TraceAdds P w w') {f : Event → Bool} (ha : w.trace.any f = true) :
    w'.trace.any f = true := by
  obtain ⟨t, e₁, _⟩ := h
  rw [e₁, List.any_append, ha, Bool.true_or]

theorem traceAdds_of_eq {P : Event → Prop} {w w' : World} (t : List Event)
    (heq : w'.trace = w.trace ++ t) (ha : ∀ e ∈ t, P e) : TraceAdds P w w' :=
  ⟨t, heq, ha⟩

theorem addEvent_trace (w : World) (e : Event) :
    (w.addEvent e).trace = w.trace ++ [e] := rfl

theorem popClock_trace (w : World) : (w.popClock).2.trace = w.trace := by
  cases h : w.clock <;> simp [World.popClock, h]

theorem popExec_trace (w : World) : (w.popExec).2.trace = w.trace := by
  cases h : w.execs <;> simp [World.popExec, h]

theorem popIExec_trace (w : World) : (w.popIExec).2.trace = w.trace := by
  cases h : w.iexecs <;> simp [World.popIExec, h]

theorem popConnect_trace (w : World) :
    (w.popConnect).2.trace = w.trace ++ [Event.connect_attempt] := by
  cases h : w.connects <;> simp [World.popConnect, h, World.addEvent]

theorem wait_for_enter_trace {text : String} {w w' : World}
    (h : wait_for_enter text w = some w') :
    w'.trace = w.trace ++ [Event.prompt_enter text] := by
  unfold wait_for_enter at h
  cases hs : w.stdin with
  | nil => rw [hs] at h; exact absurd h (by simp)
  | cons a rest =>
    rw [hs] at h
    simp only [Option.some.injEq] at h
    rw [← h]
    rfl

theorem gyn_trace {q : String} {allow : Bool} {w : World}
    {res : Option Bool} {d : Nat} {w' : World}
    (h : get_yes_no_input q allow w = some (res, d, w')) :
    w'.trace = w.trace ++ [Event.prompt_yn q] := by
  unfold get_yes_no_input at h
  cases hl : get_yes_no_loop allow w.stdin with
  | none => rw [hl] at h; exact absurd h (by simp)
  | some pr =>
    obtain ⟨res', rest⟩ := pr
    rw [hl] at h
    simp only [Option.some.injEq, Prod.mk.injEq] at h
    obtain ⟨-, -, hw⟩ := h
    rw [← hw, popClock_trace]
    rfl

theorem gyn_prompt_mem {q : String} {allow : Bool} {w : World}
    {res : Option Bool} {d : Nat} {w' : World}
    (h : get_yes_no_input q allow w = some (res, d, w')) :
    Event.prompt_yn q ∈ w'.trace := by
  rw [gyn_trace h]
  simp

theorem NonPrompt.connect : NonPrompt Event.connect_attempt := by intro q; simp

theorem NonPrompt.enter (t : String) : NonPrompt (Event.prompt_enter t) := by intro q; simp

theorem NonPrompt.exec (c : String) : NonPrompt (Event.exec_cmd c) := by intro q; simp

theorem NonPrompt.iexec (c : String) : NonPrompt (Event.exec_interactive c) := by intro q; simp

theorem NonPrompt.save : NonPrompt Event.save_row := by intro q; simp

theorem traceAdds_single {P : Event → Prop} {w w' : World} (e : Event)
    (heq : w'.trace = w.trace ++ [e]) (hP : P e) : TraceAdds P w w' := by
  refine ⟨[e], heq, ?_⟩
  intro x hx
  simp only [List.mem_singleton] at hx
  rw [hx]
  exact hP

theorem traceAdds_of_trace_eq {P : Event → Prop} {w w' : World}
    (h : w'.trace = w.trace) : TraceAdds P w w' :=
  ⟨[], by rw [h, List.append_nil], by simp⟩

theorem ssh_exec_trace (ssh : Option Unit) (cmd : String) (w : World) :
    (ssh_execute_command ssh cmd w).2.2.trace = w.trace ++ [Event.exec_cmd cmd] := by
  unfold ssh_execute_command
  cases ssh with
  | none => rfl
  | some u =>
    cases he : ((w.addEvent (Event.exec_cmd cmd)).popExec).1 <;>
      simp [he, popExec_trace, addEvent_trace]

theorem ssh_iexec_trace (ssh : Option Unit) (cmd : String) (w : World) :
    (ssh_execute_interactive ssh cmd w).2.2.trace
      = w.trace ++ [Event.exec_interactive cmd] := by
  unfold ssh_execute_interactive
  cases ssh with
  | none => rfl
  | some u =>
    cases he : ((w.addEvent (Event.exec_interactive cmd)).popIExec).1 <;>
      simp [he, popIExec_trace, addEvent_trace]

theorem ssh_exec_adds {P : Event → Prop} (ssh : Option Unit) (cmd : String)
    (w : World) (hP : P (Event.exec_cmd cmd)) :
    TraceAdds P w (ssh_execute_command ssh cmd w).2.2 :=
  traceAdds_single _ (ssh_exec_trace ssh cmd w) hP

theorem ssh_iexec_adds {P : Event → Prop} (ssh : Option Unit) (cmd : String)
    (w : World) (hP : P (Event.exec_interactive cmd)) :
    TraceAdds P w (ssh_execute_interactive ssh cmd w).2.2 :=
  traceAdds_single _ (ssh_iexec_trace ssh cmd w) hP

theorem reconnect_go_adds : ∀ (n : Nat) (w : World) {c : Option Unit} {w' : World},
    reconnect_go n w = some (c, w') → TraceAdds NonPrompt w w'
  | 0, w, c, w', h => by
    simp only [reconnect_go, Option.some.injEq, Prod.mk.injEq] at h
    rw [← h.2]
    exact TraceAdds.refl _ _
  | n + 1, w, c, w', h => by
    unfold reconnect_go at h
    by_cases h1 : (w.popConnect).1
    · rw [if_pos h1] at h
      simp only [Option.some.injEq, Prod.mk.injEq] at h
      rw [← h.2]
      exact traceAdds_single _ (popConnect_trace w) NonPrompt.connect
    · rw [if_neg h1] at h
      by_cases h2 : n = 0
      · rw [if_pos h2] at h
        simp only [Option.some.injEq, Prod.mk.injEq] at h
        rw [← h.2]
        exact traceAdds_single _ (popConnect_trace w) NonPrompt.connect
      · rw [if_neg h2] at h
        cases hw : wait_for_enter "Press Enter to retry SSH connection" (w.popConnect).2 with
        | none => rw [hw] at h; exact absurd h (by simp)
        | some w₂ =>
          rw [hw] at h
          have t₁ : TraceAdds NonPrompt w (w.popConnect).2 :=
            traceAdds_single _ (popConnect_trace w) NonPrompt.connect
          have t₂ : TraceAdds NonPrompt (w.popConnect).2 w₂ :=
            traceAdds_single _ (wait_for_enter_trace hw) (NonPrompt.enter _)
          exact (t₁.trans t₂).trans (reconnect_go_adds n w₂ h)

theorem reconnect_ssh_adds {n : Nat} {w : World} {c : Option Unit} {w' : World}
    (h : reconnect_ssh n w = some (c, w')) : TraceAdds NonPrompt w w' :=
  reconnect_go_adds n w h

theorem exec_with_retry_adds {ssh : Option Unit} {cmd : String} {w : World}
    {r : Option Unit × String × String × World}
    (h : exec_with_retry ssh cmd w = some r) : TraceAdds NonPrompt w r.2.2.2 := by
  unfold exec_with_retry at h
  have t₀ : TraceAdds NonPrompt w (ssh_execute_command ssh cmd w).2.2 :=
    ssh_exec_adds ssh cmd w (NonPrompt.exec cmd)
  by_cases hp : py_in "SSH_ERROR" (ssh_execute_command ssh cmd w).2.1 = true
  · rw [if_pos hp] at h
    cases hr : reconnect_ssh 5 (ssh_execute_command ssh cmd w).2.2 with
    | none => rw [hr] at h; exact absurd h (by simp)
    | some pr =>
      obtain ⟨c?, w₂⟩ := pr
      have t₁ : TraceAdds NonPrompt (ssh_execute_command ssh cmd w).2.2 w₂ :=
        reconnect_ssh_adds hr
      rw [hr] at h
      cases c? with
      | some c =>
        simp only [Option.some.injEq] at h
        subst h
        exact (t₀.trans t₁).trans (ssh_exec_adds _ cmd w₂ (NonPrompt.exec cmd))
      | none =>
        simp only [Option.some.injEq] at h
        subst h
        exact t₀.trans t₁
  · rw [if_neg hp] at h
    simp only [Option.some.injEq] at h
    subst h
    exact t₀

theorem guarded_set_fact {P : Event → Prop} (tid : String) (res : Option Bool)
    (det : String) (s : TestResult × World) :
    LedgerPres [tid] s.1 (guarded_set tid res det s).1 ∧
    TraceAdds P s.2 (guarded_set tid res det s).2 := by
  unfold guarded_set
  by_cases hm : tid ∈ s.1.tests_to_run
  · rw [if_pos hm]
    refine ⟨?_, ?_⟩
    · show LedgerPres [tid] s.1 (s.1.set_test_result tid res det (some (s.2.popClock).1))
      exact LedgerPres.set tid res det _ (by simp) hm
    · show TraceAdds P s.2 (s.2.popClock).2
      exact traceAdds_of_trace_eq (popClock_trace _)
  · rw [if_neg hm]
    exact ⟨LedgerPres.here _ _, TraceAdds.refl _ _⟩

theorem guarded_set_run (tid : String) (res : Option Bool) (det : String)
    (s : TestResult × World) :
    (guarded_set tid res det s).1.tests_to_run = s.1.tests_to_run := by
  unfold guarded_set
  by_cases hm : tid ∈ s.1.tests_to_run
  · rw [if_pos hm]; rfl
  · rw [if_neg hm]

theorem usb_checks_fact {tr : TestResult} {ssh : Option Unit} {w : World}
    {r : Option Unit × TestResult × World} (h : usb_checks tr ssh w = some r) :
    LedgerPres ["T09", "T10", "T11"] tr r.2.1 ∧ TraceAdds NonPrompt w r.2.2 := by
  unfold usb_checks at h
  cases hx : exec_with_retry ssh "lsusb" w with
  | none => rw [hx] at h; exact absurd h (by simp)
  | some q =>
    obtain ⟨ssh₁, out, err, w₁⟩ := q
    rw [hx] at h
    simp only [Option.some.injEq] at h
    subst h
    have t₀ : TraceAdds NonPrompt w w₁ := exec_with_retry_adds hx
    have sub : ∀ x, x ∈ (["T09"] : List String) → x ∈ (["T09", "T10", "T11"] : List String) := by
      intro x hx'; simp at hx'; simp [hx']
    have sub10 : ∀ x, x ∈ (["T10"] : List String) → x ∈ (["T09", "T10", "T11"] : List String) := by
      intro x hx'; simp at hx'; simp [hx']
    have sub11 : ∀ x, x ∈ (["T11"] : List String) → x ∈ (["T09", "T10", "T11"] : List String) := by
      intro x hx'; simp at hx'; simp [hx']
    obtain ⟨l9, t9⟩ := @guarded_set_fact NonPrompt "T09"
      (some (py_in "MicroPython Board in FS mode" out))
      ("lsusb output: " ++ py_take out 100 ++ "...") (tr, w₁)
    obtain ⟨l10, t10⟩ := @guarded_set_fact NonPrompt "T10"
      (some (py_in "QinHeng Electronics USB HUB" out)) ""
      (guarded_set "T09" (some (py_in "MicroPython Board in FS mode" out))
        ("lsusb output: " ++ py_take out 100 ++ "...") (tr, w₁))
    obtain ⟨l11, t11⟩ := @guarded_set_fact NonPrompt "T11"
      (some (py_in "Microchip Technology, Inc. (formerly SMSC) Ultra Fast Media" out)) ""
      (guarded_set "T10" (some (py_in "QinHeng Electronics USB HUB" out)) ""
        (guarded_set "T09" (some (py_in "MicroPython Board in FS mode" out))
          ("lsusb output: " ++ py_take out 100 ++ "...") (tr, w₁)))
    exact ⟨((l9.widen sub).across (l10.widen sub10)).across (l11.widen sub11),
      ((t₀.trans t9).trans t10).trans t11⟩

theorem mark_step_run (acc : TestResult) (tid : String) :
    (mark_step acc tid).tests_to_run = acc.tests_to_run := by
  unfold mark_step
  by_cases hm : tid ∈ acc.tests_to_run
  · rw [if_pos hm]; rfl
  · rw [if_neg hm]

theorem mark_fold_pres : ∀ (ids : List String) (tr : TestResult),
    LedgerPres ids tr (ids.foldl mark_step tr)
  | [], tr => LedgerPres.here _ _
  | t :: rest, tr => by
    have head : LedgerPres (t :: rest) tr (mark_step tr t) := by
      unfold mark_step
      by_cases hm : t ∈ tr.tests_to_run
      · rw [if_pos hm]
        exact LedgerPres.set t _ _ _ (by simp) hm
      · rw [if_neg hm]
        exact LedgerPres.here _ _
    have tail := (mark_fold_pres rest (mark_step tr t)).widen
      (fun x hx => List.mem_cons_of_mem t hx)
    simpa [List.foldl_cons] using head.across tail

theorem set_durations_self (tr : TestResult) (t : String) (r : Option Bool)
    (det : String) (d : Nat) :
    (tr.set_test_result t r det (some d)).test_durations t = some d := by
  simp [TestResult.set_test_result]

theorem log_any_mono {tr tr' : TestResult} (f : LogEntry → Bool)
    (hext : ∃ ext, tr'.log = tr.log ++ ext) (h : tr.log.any f = true) :
    tr'.log.any f = true := by
  obtain ⟨ext, he⟩ := hext
  rw [he, List.any_append, h, Bool.true_or]

theorem mark_fold_marks : ∀ (ids : List String) (tr : TestResult) (tid : String),
    ids.Nodup → tid ∈ ids → tid ∈ tr.tests_to_run →
    (ids.foldl mark_step tr).test_results tid = PyVal.pyFalse ∧
    (ids.foldl mark_step tr).test_durations tid = some 0 ∧
    (ids.foldl mark_step tr).log.any
      (fun e => decide (e.testId = tid ∧ e.details = "SSH connection failed"
        ∧ e.status = some false)) = true
  | [], _, tid, _, hmem, _ => absurd hmem (by simp)
  | t :: rest, tr, tid, hnd, hmem, hrun => by
    rw [List.foldl_cons]
    rcases List.mem_cons.1 hmem with heq | hmem'
    · subst heq
      have hset : mark_step tr tid
          = tr.set_test_result tid (some false) "SSH connection failed" (some 0) := by
        unfold mark_step
        rw [if_pos hrun]
      have hnotin : tid ∉ rest := (List.nodup_cons.1 hnd).1
      obtain ⟨p, rq, ext, hext⟩ := mark_fold_pres rest (mark_step tr tid)
      obtain ⟨pr, pd⟩ := p tid (Or.inl hnotin)
      refine ⟨?_, ?_, ?_⟩
      · rw [pr, hset, set_results_self]; rfl
      · rw [pd, hset, set_durations_self]
      · apply log_any_mono _ ⟨ext, hext⟩
        rw [hset, set_log_eq, List.any_append]
        simp
    · have hrun' : tid ∈ (mark_step tr t).tests_to_run := by
        rw [mark_step_run]; exact hrun
      exact mark_fold_marks rest (mark_step tr t) tid (List.nodup_cons.1 hnd).2 hmem' hrun'

theorem RgbPromptOnly.of_nonPrompt {e : Event} (h : NonPrompt e) : RgbPromptOnly e :=
  fun q hq => absurd hq (h q)

theorem RgbPromptOnly.rgb : RgbPromptOnly (Event.prompt_yn rgb_question) := by
  intro q hq
  injection hq with h
  exact h.symm

theorem gyn_adds {P : Event → Prop} {q : String} {allow : Bool} {w : World}
    {res : Option Bool} {d : Nat} {w' : World}
    (h : get_yes_no_input q allow w = some (res, d, w'))
    (hP : P (Event.prompt_yn q)) : TraceAdds P w w' :=
  traceAdds_single _ (gyn_trace h) hP

theorem rgb_fact {tr : TestResult} {ssh : Option Unit} {w : World}
    {r : Option Unit × TestResult × World} (h : rgb_led_ssh_test tr ssh w = some r) :
    LedgerPres ["T12"] tr r.2.1 ∧ TraceAdds RgbPromptOnly w r.2.2 := by
  unfold rgb_led_ssh_test at h
  by_cases hm : "T12" ∈ tr.tests_to_run
  case neg =>
    rw [if_neg hm] at h
    simp only [Option.some.injEq] at h
    subst h
    exact ⟨LedgerPres.here _ _, TraceAdds.refl _ _⟩
  case pos =>
    rw [if_pos hm] at h
    have tChk : TraceAdds RgbPromptOnly w (ssh_execute_command ssh rgb_check_cmd w).2.2 :=
      ssh_exec_adds _ _ _ (RgbPromptOnly.of_nonPrompt (NonPrompt.exec _))
    by_cases hnf : py_in "NOT_FOUND" (ssh_execute_command ssh rgb_check_cmd w).1 = true
    · rw [if_pos hnf] at h
      simp only [Option.some.injEq] at h
      subst h
      dsimp only
      refine ⟨LedgerPres.set _ _ _ _ (by simp) hm, ?_⟩
      exact tChk.trans (traceAdds_of_trace_eq (popClock_trace _))
    · rw [if_neg hnf] at h
      dsimp only at h
      have tIr : TraceAdds RgbPromptOnly (ssh_execute_command ssh rgb_check_cmd w).2.2
          (ssh_execute_interactive ssh rgb_run_cmd
            (ssh_execute_command ssh rgb_check_cmd w).2.2).2.2 :=
        ssh_iexec_adds _ _ _ (RgbPromptOnly.of_nonPrompt (NonPrompt.iexec _))
      -- name the interactive result world
      set wIr := (ssh_execute_interactive ssh rgb_run_cmd
        (ssh_execute_command ssh rgb_check_cmd w).2.2).2.2 with hwIr
      have finish : ∀ (ssh₂ : Option Unit) (w₅ : World),
          TraceAdds RgbPromptOnly w w₅ →
          (match get_yes_no_input rgb_question false w₅ with
            | none => none
            | some (res, _qd, w₆) =>
              some (ssh₂, tr.set_test_result "T12" res "" (some (w₆.popClock).1),
                (w₆.popClock).2)) = some r →
          LedgerPres ["T12"] tr r.2.1 ∧ TraceAdds RgbPromptOnly w r.2.2 := by
        intro ssh₂ w₅ tAcc hq
        cases hg : get_yes_no_input rgb_question false w₅ with
        | none => rw [hg] at hq; exact absurd hq (by simp)
        | some pr =>
          obtain ⟨res, qd, w₆⟩ := pr
          rw [hg] at hq
          simp only [Option.some.injEq] at hq
          subst hq
          dsimp only
          refine ⟨LedgerPres.set _ _ _ _ (by simp) hm, ?_⟩
          exact (tAcc.trans (gyn_adds hg RgbPromptOnly.rgb)).trans
            (traceAdds_of_trace_eq (popClock_trace _))
      by_cases hmk : py_in "SSH_ERROR"
          (ssh_execute_interactive ssh rgb_run_cmd
            (ssh_execute_command ssh rgb_check_cmd w).2.2).2.1 = true
      · rw [if_pos hmk] at h
        cases hr : reconnect_ssh 5 wIr with
        | none => rw [hr] at h; exact absurd h (by simp)
        | some pr =>
          obtain ⟨c?, w₃⟩ := pr
          rw [hr] at h
          have tRec : TraceAdds RgbPromptOnly wIr w₃ :=
            (reconnect_ssh_adds hr).mono (fun e he => RgbPromptOnly.of_nonPrompt he)
          cases c? with
          | some c =>
            have tIr2 : TraceAdds RgbPromptOnly w₃
                (ssh_execute_interactive (some c) rgb_run_cmd w₃).2.2 :=
              ssh_iexec_adds _ _ _ (RgbPromptOnly.of_nonPrompt (NonPrompt.iexec _))
            exact finish _ _ ((((tChk.trans tIr).trans tRec).trans tIr2)) h
          | none =>
            exact finish _ _ (((tChk.trans tIr).trans tRec)) h
      · rw [if_neg hmk] at h
        exact finish _ _ ((tChk.trans tIr)) h

theorem sd_finish_fact {tr : TestResult} {ssh : Option Unit} {out err : String}
    {w : World} {r : Option Unit × TestResult × World} (hm : "T13" ∈ tr.tests_to_run)
    (h : sd_card_finish tr ssh out err w = some r) :
    LedgerPres ["T13"] tr r.2.1 ∧ TraceAdds NonPrompt w r.2.2 := by
  unfold sd_card_finish at h
  by_cases hc : (ssh.isSome && !(py_in "SSH_ERROR" err)) = true
  · rw [if_pos hc] at h
    simp only [Option.some.injEq] at h
    subst h
    dsimp only
    exact ⟨LedgerPres.set _ _ _ _ (by simp) hm, traceAdds_of_trace_eq (popClock_trace _)⟩
  · rw [if_neg hc] at h
    simp only [Option.some.injEq] at h
    subst h
    exact ⟨LedgerPres.here _ _, TraceAdds.refl _ _⟩

theorem sd_card_check_fact {tr : TestResult} {ssh : Option Unit} {w : World}
    {r : Option Unit × TestResult × World} (h : sd_card_check tr ssh w = some r) :
    LedgerPres ["T13"] tr r.2.1 ∧ TraceAdds NonPrompt w r.2.2 := by
  unfold sd_card_check at h
  by_cases hm : "T13" ∈ tr.tests_to_run
  case neg =>
    rw [if_neg hm] at h
    simp only [Option.some.injEq] at h
    subst h
    exact ⟨LedgerPres.here _ _, TraceAdds.refl _ _⟩
  case pos =>
    rw [if_pos hm] at h
    dsimp only at h
    have tEx : TraceAdds NonPrompt w (ssh_execute_command ssh "lsblk" w).2.2 :=
      ssh_exec_adds _ _ _ (NonPrompt.exec _)
    by_cases hmk : py_in "SSH_ERROR" (ssh_execute_command ssh "lsblk" w).2.1 = true
    · rw [if_pos hmk] at h
      cases hr : reconnect_ssh 5 (ssh_execute_command ssh "lsblk" w).2.2 with
      | none => rw [hr] at h; exact absurd h (by simp)
      | some pr =>
        obtain ⟨c?, w₂⟩ := pr
        rw [hr] at h
        have tRec := reconnect_ssh_adds hr
        cases c? with
        | some c =>
          dsimp only at h
          have tEx2 : TraceAdds NonPrompt w₂ (ssh_execute_command (some c) "lsblk" w₂).2.2 :=
            ssh_exec_adds _ _ _ (NonPrompt.exec _)
          obtain ⟨l1, t1⟩ := sd_finish_fact hm h
          exact ⟨l1, ((tEx.trans tRec).trans tEx2).trans t1⟩
        | none =>
          have hm' : "T13" ∈ (tr.set_test_result "T13" (some false)
              "SSH reconnection failed" (some (w₂.popClock).1)).tests_to_run := hm
          obtain ⟨l1, t1⟩ := sd_finish_fact hm' h
          exact ⟨(LedgerPres.set _ _ _ _ (by simp) hm).across l1,
            ((tEx.trans tRec).trans (traceAdds_of_trace_eq (popClock_trace _))).trans t1⟩
    · rw [if_neg hmk] at h
      obtain ⟨l1, t1⟩ := sd_finish_fact hm h
      exact ⟨l1, tEx.trans t1⟩

theorem camera_finish_fact {tr : TestResult} {ssh : Option Unit} {err : String}
    {w : World} {r : Option Unit × TestResult × World} (hm : "T14" ∈ tr.tests_to_run)
    (h : camera_finish tr ssh err w = some r) :
    LedgerPres ["T14"] tr r.2.1 ∧ TraceAdds NonPrompt w r.2.2 := by
  unfold camera_finish at h
  by_cases hc : (ssh.isSome && !(py_in "SSH_ERROR" err)) = true
  · rw [if_pos hc] at h
    simp only [Option.some.injEq] at h
    subst h
    dsimp only
    exact ⟨LedgerPres.set _ _ _ _ (by simp) hm, traceAdds_of_trace_eq (popClock_trace _)⟩
  · rw [if_neg hc] at h
    simp only [Option.some.injEq] at h
    subst h
    exact ⟨LedgerPres.here _ _, TraceAdds.refl _ _⟩

theorem camera_check_fact {tr : TestResult} {ssh : Option Unit} {w : World}
    {r : Option Unit × TestResult × World} (h : camera_check tr ssh w = some r) :
    LedgerPres ["T14"] tr r.2.1 ∧ TraceAdds NonPrompt w r.2.2 := by
  unfold camera_check at h
  by_cases hm : "T14" ∈ tr.tests_to_run
  case neg =>
    rw [if_neg hm] at h
    simp only [Option.some.injEq] at h
    subst h
    exact ⟨LedgerPres.here _ _, TraceAdds.refl _ _⟩
  case pos =>
    rw [if_pos hm] at h
    dsimp only at h
    have tEx : TraceAdds NonPrompt w (ssh_execute_command ssh "libcamera-hello" w).2.2 :=
      ssh_exec_adds _ _ _ (NonPrompt.exec _)
    by_cases hmk : py_in "SSH_ERROR" (ssh_execute_command ssh "libcamera-hello" w).2.1 = true
    · rw [if_pos hmk] at h
      cases hr : reconnect_ssh 5 (ssh_execute_command ssh "libcamera-hello" w).2.2 with
      | none => rw [hr] at h; exact absurd h (by simp)
      | some pr =>
        obtain ⟨c?, w₂⟩ := pr
        rw [hr] at h
        have tRec := reconnect_ssh_adds hr
        cases c? with
        | some c =>
          dsimp only at h
          have tEx2 : TraceAdds NonPrompt w₂
              (ssh_execute_command (some c) "libcamera-hello" w₂).2.2 :=
            ssh_exec_adds _ _ _ (NonPrompt.exec _)
          obtain ⟨l1, t1⟩ := camera_finish_fact hm h
          exact ⟨l1, ((tEx.trans tRec).trans tEx2).trans t1⟩
        | none =>
          have hm' : "T14" ∈ (tr.set_test_result "T14" (some false)
              "SSH reconnection failed" (some (w₂.popClock).1)).tests_to_run := hm
          obtain ⟨l1, t1⟩ := camera_finish_fact hm' h
          exact ⟨(LedgerPres.set _ _ _ _ (by simp) hm).across l1,
            ((tEx.trans tRec).trans (traceAdds_of_trace_eq (popClock_trace _))).trans t1⟩
    · rw [if_neg hmk] at h
      obtain ⟨l1, t1⟩ := camera_finish_fact hm h
      exact ⟨l1, tEx.trans t1⟩

set_option maxHeartbeats 1000000 in
theorem perform_ssh_tests_fact {tr : TestResult} {w : World}
    {r : TestResult × Bool × World} (h : perform_ssh_tests tr w = some r) :
    LedgerPres ssh_test_ids tr r.1 ∧ TraceAdds RgbPromptOnly w r.2.2 := by
  unfold perform_ssh_tests at h
  cases hr : reconnect_ssh 5 w with
  | none => rw [hr] at h; exact absurd h (by simp)
  | some pr =>
    obtain ⟨c?, w₁⟩ := pr
    rw [hr] at h
    have t₀ : TraceAdds RgbPromptOnly w w₁ :=
      (reconnect_ssh_adds hr).mono (fun e he => RgbPromptOnly.of_nonPrompt he)
    cases c? with
    | none =>
      simp only [Option.some.injEq] at h
      subst h
      dsimp only
      refine ⟨?_, t₀⟩
      have base : LedgerPres ssh_test_ids tr
          { tr with notes := tr.notes ++ " Initial SSH connection failed after 5 attempts." } :=
        ⟨fun _ _ => ⟨rfl, rfl⟩, rfl, [], by simp⟩
      refine base.across ?_
      show LedgerPres ssh_test_ids _ (ssh_test_ids.foldl mark_step _)
      exact mark_fold_pres ssh_test_ids _
    | some c =>
      dsimp only at h
      cases h1 : usb_checks tr (some c) w₁ with
      | none => rw [h1] at h; exact absurd h (by simp)
      | some q1 =>
        obtain ⟨ssh₂, tr₂, w₂⟩ := q1
        rw [h1] at h
        dsimp only at h
        obtain ⟨lp1, ta1⟩ := usb_checks_fact h1
        cases h2 : rgb_led_ssh_test tr₂ ssh₂ w₂ with
        | none => rw [h2] at h; exact absurd h (by simp)
        | some q2 =>
          obtain ⟨ssh₃, tr₃, w₃⟩ := q2
          rw [h2] at h
          dsimp only at h
          obtain ⟨lp2, ta2⟩ := rgb_fact h2
          cases h3 : sd_card_check tr₃ ssh₃ w₃ with
          | none => rw [h3] at h; exact absurd h (by simp)
          | some q3 =>
            obtain ⟨ssh₄, tr₄, w₄⟩ := q3
            rw [h3] at h
            dsimp only at h
            obtain ⟨lp3, ta3⟩ := sd_card_check_fact h3
            cases h4 : camera_check tr₄ ssh₄ w₄ with
            | none => rw [h4] at h; exact absurd h (by simp)
            | some q4 =>
              obtain ⟨ssh₅, tr₅, w₅⟩ := q4
              rw [h4] at h
              dsimp only at h
              obtain ⟨lp4, ta4⟩ := camera_check_fact h4
              simp only [Option.some.injEq] at h
              subst h
              refine ⟨?_, ?_⟩
              · have m1 := @LedgerPres.widen _ ssh_test_ids _ _
                  (by intro x hx; simp [ssh_test_ids]; simp at hx; tauto) lp1
                have m2 := @LedgerPres.widen _ ssh_test_ids _ _
                  (by intro x hx; simp [ssh_test_ids]; simp at hx; tauto) lp2
                have m3 := @LedgerPres.widen _ ssh_test_ids _ _
                  (by intro x hx; simp [ssh_test_ids]; simp at hx; tauto) lp3
                have m4 := @LedgerPres.widen _ ssh_test_ids _ _
                  (by intro x hx; simp [ssh_test_ids]; simp at hx; tauto) lp4
                exact ((m1.across m2).across m3).across m4
              · have n1 := ta1.mono (fun e he => RgbPromptOnly.of_nonPrompt he)
                have n3 := ta3.mono (fun e he => RgbPromptOnly.of_nonPrompt he)
                have n4 := ta4.mono (fun e he => RgbPromptOnly.of_nonPrompt he)
                exact (((t₀.trans n1).trans ta2).trans n3).trans n4

theorem listHasSub_append_left (s t needle : List Char)
    (h : listHasSub t needle = true) : listHasSub (s ++ t) needle = true := by
  induction s with
  | nil => simpa using h
  | cons a s' ih =>
    show (listStartsWith (a :: (s' ++ t)) needle || listHasSub (s' ++ t) needle) = true
    rw [ih, Bool.or_true]

theorem py_in_suffix (needle h₁ h₂ : String) (h : py_in needle h₂ = true) :
    py_in needle (h₁ ++ h₂) = true := by
  unfold py_in at h ⊢
  rw [String.data_append]
  exact listHasSub_append_left _ _ _ h

theorem mark_step_notes (acc : TestResult) (tid : String) :
    (mark_step acc tid).notes = acc.notes := by
  unfold mark_step
  by_cases hm : tid ∈ acc.tests_to_run
  · rw [if_pos hm]; rfl
  · rw [if_neg hm]

theorem mark_fold_notes : ∀ (ids : List String) (tr : TestResult),
    (ids.foldl mark_step tr).notes = tr.notes
  | [], _ => rfl
  | t :: rest, tr => by
    rw [List.foldl_cons, mark_fold_notes rest (mark_step tr t), mark_step_notes]

/-- C6 counterexample: with T09 and T13 selected, the initial connection
succeeds, `lsusb` hits a transport error, and the subsequent five-attempt
reconnect is exhausted (a connection failure after exhausting all retry
attempts, witnessed by the seven `connect_attempt` events).  Yet the
not-yet-run test T13 is not marked "connection failed": the group goes on,
T13 makes its own successful reconnect and ends `Pass`, and no log entry
carries the "SSH connection failed" detail. -/
theorem C6_counterexample :
    perform_ssh_tests c6_tr c6_world = some c6_trip
  ∧ c6_trip.2.1 = true
  ∧ c6_trip.1.test_results "T13" = PyVal.pyTrue
  ∧ c6_trip.1.test_results "T09" = PyVal.pyFalse
  ∧ (c6_trip.2.2.trace.count Event.connect_attempt) = 7
  ∧ c6_trip.1.log.all (fun e => decide (e.details ≠ "SSH connection failed")) = true :=
  ⟨rfl, rfl, rfl, rfl, by decide, by decide⟩

/-- C6 (amended): only an initial connection failure — `perform_ssh_tests`
returning `False`, which happens exactly when the first `reconnect_ssh`
exhausts its five attempts before any remote test has run — marks every
selected remote-check test as Fail with detail "SSH connection failed" and
duration 0 and skips the whole group, with the failure noted; a mid-group
connection failure does not abort the group (each later test retries its
own connection, as the counterexample shows). -/
theorem C6_initial_failure_marks_theorem {tr : TestResult} {w : World}
    {r : TestResult × Bool × World} (h : perform_ssh_tests tr w = some r)
    (hfalse : r.2.1 = false) (tid : String) (hmem : tid ∈ ssh_test_ids)
    (hsel : tid ∈ tr.tests_to_run) :
    r.1.test_results tid = PyVal.pyFalse ∧
    r.1.test_durations tid = some 0 ∧
    r.1.log.any (fun e => decide (e.testId = tid ∧ e.details = "SSH connection failed"
      ∧ e.status = some false)) = true ∧
    py_in "Initial SSH connection failed after 5 attempts." r.1.notes = true := by
  unfold perform_ssh_tests at h
  cases hr : reconnect_ssh 5 w with
  | none => rw [hr] at h; exact absurd h (by simp)
  | some pr =>
    obtain ⟨c?, w₁⟩ := pr
    rw [hr] at h
    cases c? with
    | some c =>
      dsimp only at h
      cases h1 : usb_checks tr (some c) w₁ with
      | none => rw [h1] at h; exact absurd h (by simp)
      | some q1 =>
        obtain ⟨ssh₂, tr₂, w₂⟩ := q1
        rw [h1] at h
        dsimp only at h
        cases h2 : rgb_led_ssh_test tr₂ ssh₂ w₂ with
        | none => rw [h2] at h; exact absurd h (by simp)
        | some q2 =>
          obtain ⟨ssh₃, tr₃, w₃⟩ := q2
          rw [h2] at h
          dsimp only at h
          cases h3 : sd_card_check tr₃ ssh₃ w₃ with
          | none => rw [h3] at h; exact absurd h (by simp)
          | some q3 =>
            obtain ⟨ssh₄, tr₄, w₄⟩ := q3
            rw [h3] at h
            dsimp only at h
            cases h4 : camera_check tr₄ ssh₄ w₄ with
            | none => rw [h4] at h; exact absurd h (by simp)
            | some q4 =>
              obtain ⟨ssh₅, tr₅, w₅⟩ := q4
              rw [h4] at h
              dsimp only at h
              simp only [Option.some.injEq] at h
              subst h
              simp at hfalse
    | none =>
      simp only [Option.some.injEq] at h
      subst h
      dsimp only
      have hsel' : tid ∈ ({ tr with
          notes := tr.notes ++ " Initial SSH connection failed after 5 attempts."
        } : TestResult).tests_to_run := hsel
      have marks := mark_fold_marks ssh_test_ids _ tid (by decide) hmem hsel'
      have hnotes : (mark_ssh_failed { tr with
          notes := tr.notes ++ " Initial SSH connection failed after 5 attempts." }).notes
          = tr.notes ++ " Initial SSH connection failed after 5 attempts." := by
        show (ssh_test_ids.foldl mark_step _).notes = _
        rw [mark_fold_notes]
      refine ⟨marks.1, marks.2.1, marks.2.2, ?_⟩
      rw [hnotes]
      exact py_in_suffix _ _ _ (by decide)

/-- C6 witness: with T09 and T13 selected and every one of the five
initial connection attempts failing, `perform_ssh_tests` returns `False`
and T13 is marked Fail / "SSH connection failed" / duration 0, with the
note appended. -/
theorem C6_witness :
    perform_ssh_tests c6_tr c6w_world = some c6w_trip
  ∧ c6w_trip.2.1 = false
  ∧ ("T13" ∈ ssh_test_ids)
  ∧ ("T13" ∈ c6_tr.tests_to_run)
  ∧ (c6w_trip.1.test_results "T13" = PyVal.pyFalse ∧
      c6w_trip.1.test_durations "T13" = some 0 ∧
      c6w_trip.1.log.any
        (fun e => decide (e.testId = "T13" ∧ e.details = "SSH connection failed"
          ∧ e.status = some false)) = true ∧
      py_in "Initial SSH connection failed after 5 attempts." c6w_trip.1.notes = true) :=
  ⟨rfl, rfl, by decide, by decide,
    @C6_initial_failure_marks_theorem c6_tr c6w_world c6w_trip rfl rfl "T13"
      (by decide) (by decide)⟩

/-- C5: the code contradicts the claimed (and intended) retry protocol for
the interactive remote command.  Here the T12 interactive demo raises a
transport exception ("Socket is closed"); because
`ssh_execute_interactive` returns the bare exception text without the
`SSH_ERROR: ` marker, the reconnect-and-retry branch that the code
dedicates to this case never fires: the demo is executed exactly once and
no reconnect attempt is made, after which T12 is judged by the operator
prompt as if nothing failed. -/
theorem C5_interactive_no_retry_theorem :
    rgb_led_ssh_test c5_tr (some ()) c5_world = some c5_trip
  ∧ c5_world.iexecs = [IExecOut.iexc "Socket is closed"]
  ∧ (c5_trip.2.2.trace.count (Event.exec_interactive rgb_run_cmd)) = 1
  ∧ (c5_trip.2.2.trace.count Event.connect_attempt) = 0
  ∧ c5_trip.2.1.test_results "T12" = PyVal.pyTrue :=
  ⟨rfl, rfl, by decide, by decide, rfl⟩

theorem save_results (tr : TestResult) (w : World) :
    (save_to_excel tr w).1.test_results = tr.test_results := rfl

theorem save_overall (tr : TestResult) (w : World) :
    (save_to_excel tr w).1.overall_pass = overall_pass_of tr.test_results := rfl

theorem save_trace (tr : TestResult) (w : World) :
    (save_to_excel tr w).2.trace = w.trace ++ [Event.save_row] := rfl

theorem save_ledgerPres (written : List String) (tr : TestResult) (w : World) :
    LedgerPres written tr (save_to_excel tr w).1 :=
  ⟨fun _ _ => ⟨rfl, rfl⟩, rfl, [], (List.append_nil _).symm⟩

theorem exit_restart_eq {tr : TestResult} {w : World} {p : SessionOutcome × World}
    (h : exit_restart tr w = some p) :
    p = ({ led := (save_to_excel tr w).1, restartFlag := true, looped := true },
      (save_to_excel tr w).2) :=
  (Option.some.inj h).symm

theorem exit_normal_eq {tr : TestResult} {w : World} {p : SessionOutcome × World}
    (h : exit_normal tr w = some p) :
    p = ({ led := (save_to_excel tr w).1, restartFlag := false, looped := false },
      (save_to_excel tr w).2) :=
  (Option.some.inj h).symm

theorem exit_fw_failed_eq {tr : TestResult} {w : World} {p : SessionOutcome × World}
    (h : exit_fw_failed tr w = some p) :
    p = ({ led := (save_to_excel { tr with notes := "Firmware upload failed" } w).1,
           restartFlag := false, looped := true },
      (save_to_excel { tr with notes := "Firmware upload failed" } w).2) :=
  (Option.some.inj h).symm

theorem step_then_cases {s : Option Step} {k : TestResult → World → Option (SessionOutcome × World)}
    {p : SessionOutcome × World} (h : step_then s k = some p) :
    (∃ tr w, s = some (.halt tr w) ∧ exit_restart tr w = some p) ∨
    (∃ tr w, s = some (.next tr w) ∧ k tr w = some p) := by
  unfold step_then at h
  cases s with
  | none => exact absurd h (by simp)
  | some st =>
    cases st with
    | next tr w => exact Or.inr ⟨tr, w, rfl, h⟩
    | halt tr w => exact Or.inl ⟨tr, w, rfl, h⟩

theorem any_of_mem {l : List Event} {e : Event} (hm : e ∈ l)
    (he : continue_prompt_event e = true) : l.any continue_prompt_event = true :=
  List.any_eq_true.2 ⟨e, hm, he⟩

theorem visual_step_not_sel {tid q : String} {tr : TestResult} {w : World}
    (hm : tid ∉ tr.tests_to_run) :
    visual_step tid q tr w = some (.next tr w) := by
  unfold visual_step
  rw [if_neg hm]

theorem visual_step_next {tid q : String} {tr : TestResult} {w : World}
    {tr' : TestResult} {w' : World}
    (h : visual_step tid q tr w = some (.next tr' w')) :
    LedgerPres [tid] tr tr' ∧
    TraceAdds (fun e => e = Event.prompt_yn q) w w' ∧
    (tid ∈ tr.tests_to_run → Event.prompt_yn q ∈ w'.trace) := by
  unfold visual_step at h
  by_cases hm : tid ∈ tr.tests_to_run
  · rw [if_pos hm] at h
    cases hg : get_yes_no_input q true w with
    | none => rw [hg] at h; exact absurd h (by simp)
    | some pr =>
      obtain ⟨res, d, w₁⟩ := pr
      rw [hg] at h
      cases res with
      | none => simp at h
      | some b =>
        simp only [Option.some.injEq, Step.next.injEq] at h
        obtain ⟨htr, hw⟩ := h
        subst htr
        subst hw
        exact ⟨LedgerPres.set _ _ _ _ (by simp) hm,
          gyn_adds hg rfl, fun _ => gyn_prompt_mem hg⟩
  · rw [if_neg hm] at h
    simp only [Option.some.injEq, Step.next.injEq] at h
    obtain ⟨htr, hw⟩ := h
    subst htr
    subst hw
    exact ⟨LedgerPres.here _ _, TraceAdds.refl _ _, fun hmm => absurd hmm hm⟩

theorem visual_step_halt {tid q : String} {tr : TestResult} {w : World}
    {tr' : TestResult} {w' : World}
    (h : visual_step tid q tr w = some (.halt tr' w')) :
    tr' = tr ∧ Event.prompt_yn q ∈ w'.trace ∧
    TraceAdds (fun e => e = Event.prompt_yn q) w w' := by
  unfold visual_step at h
  by_cases hm : tid ∈ tr.tests_to_run
  · rw [if_pos hm] at h
    cases hg : get_yes_no_input q true w with
    | none => rw [hg] at h; exact absurd h (by simp)
    | some pr =>
      obtain ⟨res, d, w₁⟩ := pr
      rw [hg] at h
      cases res with
      | some b => simp at h
      | none =>
        simp only [Option.some.injEq, Step.halt.injEq] at h
        obtain ⟨htr, hw⟩ := h
        subst htr
        subst hw
        exact ⟨rfl, gyn_prompt_mem hg, gyn_adds hg rfl⟩
  · rw [if_neg hm] at h
    simp at h

theorem ui_tail_next {tr : TestResult} {w : World} {tr' : TestResult} {w' : World}
    (h : ui_tail tr w = some (.next tr' w')) :
    LedgerPres ["T06", "T07"] tr tr' ∧
    TraceAdds (fun e => e = Event.prompt_yn q_T06 ∨ e = Event.prompt_yn q_T07) w w' ∧
    ("T06" ∈ tr.tests_to_run → Event.prompt_yn q_T06 ∈ w'.trace) ∧
    ("T07" ∈ tr.tests_to_run → Event.prompt_yn q_T07 ∈ w'.trace) := by
  unfold ui_tail at h
  cases h6 : visual_step "T06" q_T06 tr w with
  | none => rw [h6] at h; exact absurd h (by simp)
  | some st =>
    rw [h6] at h
    cases st with
    | halt tr₁ w₁ => simp at h
    | next tr₁ w₁ =>
      dsimp only at h
      obtain ⟨l6, t6, m6⟩ := visual_step_next h6
      obtain ⟨l7, t7, m7⟩ := visual_step_next h
      refine ⟨?_, ?_, ?_, ?_⟩
      · refine ((l6.widen ?_).across (l7.widen ?_)) <;>
          (intro x hx; simp only [List.mem_singleton] at hx; simp [hx])
      · exact (t6.mono (fun e he => Or.inl he)).trans (t7.mono (fun e he => Or.inr he))
      · intro hm
        exact t7.mem (m6 hm)
      · intro hm
        have hm' : "T07" ∈ tr₁.tests_to_run := by rw [l6.2.1]; exact hm
        exact m7 hm'

theorem ui_tail_halt {tr : TestResult} {w : World} {tr' : TestResult} {w' : World}
    (h : ui_tail tr w = some (.halt tr' w')) :
    LedgerPres ["T06", "T07"] tr tr' ∧
    TraceAdds (fun e => e = Event.prompt_yn q_T06 ∨ e = Event.prompt_yn q_T07) w w' ∧
    w'.trace.any continue_prompt_event = true := by
  unfold ui_tail at h
  cases h6 : visual_step "T06" q_T06 tr w with
  | none => rw [h6] at h; exact absurd h (by simp)
  | some st =>
    rw [h6] at h
    cases st with
    | halt tr₁ w₁ =>
      dsimp only at h
      simp only [Option.some.injEq, Step.halt.injEq] at h
      obtain ⟨htr, hw⟩ := h
      subst htr
      subst hw
      obtain ⟨heq, hmem, t6⟩ := visual_step_halt h6
      subst heq
      exact ⟨LedgerPres.here _ _, t6.mono (fun e he => Or.inl he),
        any_of_mem hmem (by decide)⟩
    | next tr₁ w₁ =>
      dsimp only at h
      obtain ⟨l6, t6, m6⟩ := visual_step_next h6
      obtain ⟨heq, hmem, t7⟩ := visual_step_halt h
      subst heq
      refine ⟨l6.widen ?_, (t6.mono (fun e he => Or.inl he)).trans
        (t7.mono (fun e he => Or.inr he)), any_of_mem hmem (by decide)⟩
      intro x hx
      simp only [List.mem_singleton] at hx
      simp [hx]

theorem ui_group_next {tr : TestResult} {w : World} {tr' : TestResult} {w' : World}
    (h : ui_group tr w = some (.next tr' w')) :
    LedgerPres ["T05", "T06", "T07"] tr tr' ∧
    TraceAdds (fun e => e = Event.prompt_yn q_T05 ∨ e = Event.prompt_yn q_T06
      ∨ e = Event.prompt_yn q_T07) w w' ∧
    ("T06" ∈ tr.tests_to_run →
      (Event.prompt_yn q_T06 ∈ w'.trace ↔ Event.prompt_yn q_T06 ∈ w.trace
        ∨ ("T05" ∉ tr.tests_to_run ∨ tr'.test_results "T05" = PyVal.pyTrue))) ∧
    ("T07" ∈ tr.tests_to_run →
      (Event.prompt_yn q_T07 ∈ w'.trace ↔ Event.prompt_yn q_T07 ∈ w.trace
        ∨ ("T05" ∉ tr.tests_to_run ∨ tr'.test_results "T05" = PyVal.pyTrue))) ∧
    ("T05" ∈ tr.tests_to_run → tr'.test_results "T05" ≠ PyVal.pyTrue →
      tr'.test_results "T06" = tr.test_results "T06" ∧
      tr'.test_results "T07" = tr.test_results "T07") := by
  unfold ui_group at h
  by_cases hm5 : "T05" ∈ tr.tests_to_run
  case neg =>
    rw [if_neg hm5] at h
    obtain ⟨lt, tt, m6, m7⟩ := ui_tail_next h
    refine ⟨lt.widen ?_, tt.mono (fun e he => Or.inr he), ?_, ?_, fun hm _ => absurd hm hm5⟩
    · intro x hx
      simp at hx
      rcases hx with hx | hx <;> simp [hx]
    · intro hm6
      exact ⟨fun _ => Or.inr (Or.inl hm5), fun _ => m6 hm6⟩
    · intro hm7
      exact ⟨fun _ => Or.inr (Or.inl hm5), fun _ => m7 hm7⟩
  case pos =>
    rw [if_pos hm5] at h
    cases hg : get_yes_no_input q_T05 true w with
    | none => rw [hg] at h; exact absurd h (by simp)
    | some pr =>
      obtain ⟨res, d, w₁⟩ := pr
      rw [hg] at h
      cases res with
      | none => simp at h
      | some b =>
        dsimp only at h
        cases b with
        | true =>
          obtain ⟨lt, tt, m6, m7⟩ := ui_tail_next h
          have sub67 : ∀ x, x ∈ (["T06", "T07"] : List String) →
              x ∈ (["T05", "T06", "T07"] : List String) := by
            intro x hx
            simp at hx
            rcases hx with hx | hx <;> simp [hx]
          have h5 : tr'.test_results "T05" = PyVal.pyTrue := by
            obtain ⟨hr5, _⟩ := lt.1 "T05" (Or.inl (by decide))
            rw [hr5, set_results_self]
            rfl
          refine ⟨?_, ?_, ?_, ?_, ?_⟩
          · exact (LedgerPres.set _ _ _ _ (by simp) hm5).across (lt.widen sub67)
          · exact (gyn_adds hg (Or.inl rfl)).trans (tt.mono (fun e he => Or.inr he))
          · intro hm6
            refine ⟨fun _ => Or.inr (Or.inr h5), fun _ => ?_⟩
            exact m6 hm6
          · intro hm7
            refine ⟨fun _ => Or.inr (Or.inr h5), fun _ => ?_⟩
            exact m7 hm7
          · intro _ hne
            exact absurd h5 hne
        | false =>
          rw [if_neg (by simp)] at h
          simp only [Option.some.injEq, Step.next.injEq] at h
          obtain ⟨htr, hw⟩ := h
          subst htr
          subst hw
          have h5 : (tr.set_test_result "T05" (some false) "" (some d)).test_results "T05"
              = PyVal.pyFalse := by
            rw [set_results_self]
            rfl
          have tAdds : TraceAdds (fun e => e = Event.prompt_yn q_T05) w w₁ :=
            gyn_adds hg rfl
          refine ⟨LedgerPres.set _ _ _ _ (by simp) hm5, gyn_adds hg (Or.inl rfl),
            ?_, ?_, ?_⟩
          · intro hm6
            rw [tAdds.not_new (by decide)]
            refine ⟨fun hm => Or.inl hm, ?_⟩
            rintro (hm | hco)
            · exact hm
            · rcases hco with hco | hco
              · exact absurd hm5 hco
              · rw [h5] at hco
                exact absurd hco (by simp)
          · intro hm7
            rw [tAdds.not_new (by decide)]
            refine ⟨fun hm => Or.inl hm, ?_⟩
            rintro (hm | hco)
            · exact hm
            · rcases hco with hco | hco
              · exact absurd hm5 hco
              · rw [h5] at hco
                exact absurd hco (by simp)
          · intro _ _
            exact ⟨set_results_other _ _ _ _ (by decide),
              set_results_other _ _ _ _ (by decide)⟩

theorem ui_group_halt {tr : TestResult} {w : World} {tr' : TestResult} {w' : World}
    (h : ui_group tr w = some (.halt tr' w')) :
    LedgerPres ["T05", "T06", "T07"] tr tr' ∧
    TraceAdds (fun e => e = Event.prompt_yn q_T05 ∨ e = Event.prompt_yn q_T06
      ∨ e = Event.prompt_yn q_T07) w w' ∧
    w'.trace.any continue_prompt_event = true := by
  unfold ui_group at h
  by_cases hm5 : "T05" ∈ tr.tests_to_run
  case neg =>
    rw [if_neg hm5] at h
    obtain ⟨lt, tt, hany⟩ := ui_tail_halt h
    refine ⟨lt.widen ?_, tt.mono (fun e he => Or.inr he), hany⟩
    intro x hx
    simp at hx
    rcases hx with hx | hx <;> simp [hx]
  case pos =>
    rw [if_pos hm5] at h
    cases hg : get_yes_no_input q_T05 true w with
    | none => rw [hg] at h; exact absurd h (by simp)
    | some pr =>
      obtain ⟨res, d, w₁⟩ := pr
      rw [hg] at h
      cases res with
      | none =>
        simp only [Option.some.injEq, Step.halt.injEq] at h
        obtain ⟨htr, hw⟩ := h
        subst htr
        subst hw
        exact ⟨LedgerPres.here _ _, gyn_adds hg (Or.inl rfl),
          any_of_mem (gyn_prompt_mem hg) (by decide)⟩
      | some b =>
        dsimp only at h
        cases b with
        | true =>
          obtain ⟨lt, tt, hany⟩ := ui_tail_halt h
          have sub67 : ∀ x, x ∈ (["T06", "T07"] : List String) →
              x ∈ (["T05", "T06", "T07"] : List String) := by
            intro x hx
            simp at hx
            rcases hx with hx | hx <;> simp [hx]
          exact ⟨(LedgerPres.set _ _ _ _ (by simp) hm5).across (lt.widen sub67),
            (gyn_adds hg (Or.inl rfl)).trans (tt.mono (fun e he => Or.inr he)), hany⟩
        | false => simp at h

theorem exit_normal_master {tr : TestResult} {w : World} {p : SessionOutcome × World}
    (h : exit_normal tr w = some p) :
    Event.save_row ∈ p.2.trace ∧
    p.1.led.overall_pass = overall_pass_of p.1.led.test_results ∧
    p.1.restartFlag = false ∧ p.1.looped = false ∧
    LedgerPres [] tr p.1.led ∧ TraceAdds NonPrompt w p.2 ∧
    p.1.led.test_results = tr.test_results := by
  rw [exit_normal_eq h]
  dsimp only
  refine ⟨?_, rfl, rfl, rfl, save_ledgerPres _ _ _,
    traceAdds_single _ (save_trace _ _) NonPrompt.save, rfl⟩
  rw [save_trace]
  simp

theorem master_of_halt {tr₀ trh : TestResult} {wh : World} {p : SessionOutcome × World}
    (hx : exit_restart trh wh = some p)
    (hpres : LedgerPres session_written tr₀ trh)
    (hany : wh.trace.any continue_prompt_event = true) :
    Event.save_row ∈ p.2.trace ∧
    p.1.led.overall_pass = overall_pass_of p.1.led.test_results ∧
    (p.1.restartFlag = true → p.2.trace.any continue_prompt_event = true) ∧
    LedgerPres session_written tr₀ p.1.led := by
  rw [exit_restart_eq hx]
  dsimp only
  refine ⟨?_, rfl, fun _ => ?_, hpres.across (save_ledgerPres _ _ _)⟩
  · rw [save_trace]
    simp
  · rw [save_trace, List.any_append, hany, Bool.true_or]

theorem ssh_then_save_master {tr : TestResult} {w : World} {p : SessionOutcome × World}
    (h : ssh_then_save tr w = some p) :
    Event.save_row ∈ p.2.trace ∧
    p.1.led.overall_pass = overall_pass_of p.1.led.test_results ∧
    p.1.restartFlag = false ∧ p.1.looped = false ∧
    LedgerPres ssh_test_ids tr p.1.led ∧ TraceAdds RgbPromptOnly w p.2 := by
  unfold ssh_then_save at h
  by_cases hsel : ssh_test_ids.any (fun t => decide (t ∈ tr.tests_to_run)) = true
  · rw [if_pos hsel] at h
    cases hp : perform_ssh_tests tr w with
    | none => rw [hp] at h; exact absurd h (by simp)
    | some r =>
      obtain ⟨tr₁, ok, w₁⟩ := r
      rw [hp] at h
      obtain ⟨lp, ta⟩ := perform_ssh_tests_fact hp
      dsimp only at h lp ta
      cases ok with
      | true =>
        rw [if_pos rfl] at h
        obtain ⟨hsave, hover, hflag, hloop, lS, tS, _⟩ := exit_normal_master h
        exact ⟨hsave, hover, hflag, hloop, lp.across (lS.widen (by intro x hx; simp at hx)),
          ta.trans (tS.mono (fun e he => RgbPromptOnly.of_nonPrompt he))⟩
      | false =>
        rw [if_neg (by simp)] at h
        obtain ⟨hsave, hover, hflag, hloop, lS, tS, _⟩ := exit_normal_master h
        have lNotes : LedgerPres ssh_test_ids tr₁
            { tr₁ with notes := tr₁.notes ++ " SSH tests incomplete." } :=
          ⟨fun _ _ => ⟨rfl, rfl⟩, rfl, [], (List.append_nil _).symm⟩
        exact ⟨hsave, hover, hflag, hloop,
          (lp.across lNotes).across (lS.widen (by intro x hx; simp at hx)),
          ta.trans (tS.mono (fun e he => RgbPromptOnly.of_nonPrompt he))⟩
  · rw [if_neg hsel] at h
    obtain ⟨hsave, hover, hflag, hloop, lS, tS, _⟩ := exit_normal_master h
    exact ⟨hsave, hover, hflag, hloop, lS.widen (by intro x hx; simp at hx),
      tS.mono (fun e he => RgbPromptOnly.of_nonPrompt he)⟩

theorem after_firmware_master {tr : TestResult} {w : World} {p : SessionOutcome × World}
    (h : after_firmware tr w = some p) :
    Event.save_row ∈ p.2.trace ∧
    p.1.led.overall_pass = overall_pass_of p.1.led.test_results ∧
    (p.1.restartFlag = true → p.2.trace.any continue_prompt_event = true) ∧
    LedgerPres session_written tr p.1.led := by
  have sub02 : ∀ x, x ∈ (["T02"] : List String) → x ∈ session_written := by
    intro x hx; simp at hx; subst hx; decide
  have sub03 : ∀ x, x ∈ (["T03"] : List String) → x ∈ session_written := by
    intro x hx; simp at hx; subst hx; decide
  have sub04 : ∀ x, x ∈ (["T04"] : List String) → x ∈ session_written := by
    intro x hx; simp at hx; subst hx; decide
  have subUI : ∀ x, x ∈ (["T05", "T06", "T07"] : List String) → x ∈ session_written := by
    intro x hx; simp at hx; rcases hx with hx | hx | hx <;> subst hx <;> decide
  have subSSH : ∀ x, x ∈ ssh_test_ids → x ∈ session_written := by
    intro x hx; simp [ssh_test_ids] at hx; simp [session_written, ssh_test_ids]; tauto
  unfold after_firmware at h
  dsimp only at h
  cases hq : (if hardware_test_ids.any (fun t => decide (t ∈ tr.tests_to_run)) = true
      then wait_for_enter assembly_text w else some w) with
  | none => rw [hq] at h; exact absurd h (by simp)
  | some w₁ =>
    rw [hq] at h
    dsimp only at h
    rcases step_then_cases h with ⟨trh, wh, hs, hx⟩ | ⟨trA, wA, hsA, h⟩
    · obtain ⟨heq, hmem, _⟩ := visual_step_halt hs
      subst heq
      exact master_of_halt hx (LedgerPres.here _ _) (any_of_mem hmem (by decide))
    · obtain ⟨lA, tA, _⟩ := visual_step_next hsA
      rcases step_then_cases h with ⟨trh, wh, hs, hx⟩ | ⟨trB, wB, hsB, h⟩
      · obtain ⟨heq, hmem, _⟩ := visual_step_halt hs
        subst heq
        exact master_of_halt hx (lA.widen sub02) (any_of_mem hmem (by decide))
      · obtain ⟨lB, tB, _⟩ := visual_step_next hsB
        rcases step_then_cases h with ⟨trh, wh, hs, hx⟩ | ⟨trC, wC, hsC, h⟩
        · obtain ⟨heq, hmem, _⟩ := visual_step_halt hs
          subst heq
          exact master_of_halt hx ((lA.widen sub02).across (lB.widen sub03))
            (any_of_mem hmem (by decide))
        · obtain ⟨lC, tC, _⟩ := visual_step_next hsC
          rcases step_then_cases h with ⟨trh, wh, hs, hx⟩ | ⟨trD, wD, hsD, h⟩
          · obtain ⟨lU, tU, hany⟩ := ui_group_halt hs
            exact master_of_halt hx
              ((((lA.widen sub02).across (lB.widen sub03)).across (lC.widen sub04)).across
                (lU.widen subUI)) hany
          · obtain ⟨lD, tD, _, _, _⟩ := ui_group_next hsD
            obtain ⟨hsave, hover, hflag, hloop, lS, tS⟩ := ssh_then_save_master h
            refine ⟨hsave, hover, ?_, ?_⟩
            · intro hflag'
              rw [hflag] at hflag'
              exact absurd hflag' (by simp)
            · exact ((((lA.widen sub02).across (lB.widen sub03)).across
                (lC.widen sub04)).across (lD.widen subUI)).across (lS.widen subSSH)

theorem fw_fail_parts (tr : TestResult) (w : World) (hR : "T01" ∈ tr.tests_to_run)
    (detail : String) :
    LedgerPres ["T01"] tr
      (tr.set_test_result "T01" (some false) detail (some (w.popClock).1)) ∧
    (tr.set_test_result "T01" (some false) detail
      (some (w.popClock).1)).test_results "T01" = PyVal.pyFalse ∧
    (tr.set_test_result "T01" (some false) detail (some (w.popClock).1)).log.any
      (fun e => decide (e.testId = "T01" ∧ e.status = some false)) = true := by
  refine ⟨LedgerPres.set _ _ _ _ (by simp) hR, ?_, ?_⟩
  · rw [set_results_self]
    rfl
  · rw [set_log_eq, List.any_append]
    simp

theorem upload_fw_fact (tr : TestResult) (w : World) (hR : "T01" ∈ tr.tests_to_run) :
    LedgerPres ["T01"] tr (upload_firmware_wipe tr w).1 ∧
    (upload_firmware_wipe tr w).2.2.trace = w.trace ∧
    ((upload_firmware_wipe tr w).2.1 = true →
      (upload_firmware_wipe tr w).1.test_results "T01" = PyVal.pyTrue) ∧
    ((upload_firmware_wipe tr w).2.1 = false →
      (upload_firmware_wipe tr w).1.test_results "T01" = PyVal.pyFalse ∧
      (upload_firmware_wipe tr w).1.log.any
        (fun e => decide (e.testId = "T01" ∧ e.status = some false)) = true) := by
  unfold upload_firmware_wipe
  dsimp only
  split_ifs with h1 h2 h3 h4 h5 h6 <;>
  first
  | exact ⟨(fw_fail_parts tr w hR _).1, popClock_trace _, by simp,
      fun _ => ⟨(fw_fail_parts tr w hR _).2.1, (fw_fail_parts tr w hR _).2.2⟩⟩
  | (cases hu : upload_files_loop w.fw.uploads PYTHON_FILES with
     | some detail =>
       dsimp only
       exact ⟨(fw_fail_parts tr w hR _).1, popClock_trace _, by simp,
         fun _ => ⟨(fw_fail_parts tr w hR _).2.1, (fw_fail_parts tr w hR _).2.2⟩⟩
     | none =>
       dsimp only
       refine ⟨LedgerPres.set _ _ _ _ (by simp) hR, popClock_trace _, fun _ => ?_, by simp⟩
       rw [set_results_self]
       rfl)

/-- C2 counterexample: a session with selection `{T02}` in which the
operator answers "No" and then declines to continue does transition to the
restart path (`restart_test = True`, back to test selection), but the
ledger is not discarded unrecorded: `save_to_excel` runs first, appending
a report row (`save_row` is in the trace) with T02 still Unset. -/
theorem C2_counterexample :
    run_session 1 ["T02"] c2_world = some c2_pair
  ∧ c2_pair.1.restartFlag = true
  ∧ c2_pair.1.looped = true
  ∧ Event.save_row ∈ c2_pair.2.trace
  ∧ c2_pair.1.led.test_results "T02" = PyVal.unset :=
  ⟨rfl, rfl, rfl, by decide, rfl⟩

/-- C2 (amended): when the operator answers "No" then "Stop", the
sequencer does transition to Restarting (the restart flag is set and the
attempt loops back to fresh selection), but the current ledger is first
finalized and recorded to the report sink — indeed every completed attempt
of the main loop, restart or not, appends a report row and stores the
computed `overall_pass` before the next attempt begins. -/
theorem C2_restart_records_theorem {devid : Nat} {sel : List String} {w : World}
    {p : SessionOutcome × World} (h : run_session devid sel w = some p) :
    Event.save_row ∈ p.2.trace ∧
    p.1.led.overall_pass = overall_pass_of p.1.led.test_results := by
  unfold run_session at h
  dsimp only at h
  by_cases hT01 : "T01" ∈ (TestResult.init devid sel).tests_to_run
  · rw [if_pos hT01] at h
    cases hw : wait_for_enter bootloader_text w with
    | none => rw [hw] at h; exact absurd h (by simp)
    | some w₁ =>
      rw [hw] at h
      dsimp only at h
      by_cases hfw : (upload_firmware_wipe (TestResult.init devid sel) w₁).2.1 = true
      · rw [if_pos hfw] at h
        obtain ⟨hsave, hover, _, _⟩ := after_firmware_master h
        exact ⟨hsave, hover⟩
      · rw [if_neg hfw] at h
        rw [exit_fw_failed_eq h]
        dsimp only
        refine ⟨?_, rfl⟩
        rw [save_trace]
        simp
  · rw [if_neg hT01] at h
    obtain ⟨hsave, hover, _, _⟩ := after_firmware_master h
    exact ⟨hsave, hover⟩

/-- C2 witness: the "No then Stop at T02" scenario (declining the
continue prompt with a non-yes answer), instantiating the amended
theorem. -/
theorem C2_restart_records_witness :
    run_session 1 ["T02"] c2w_world = some c2w_pair
  ∧ c2w_pair.1.restartFlag = true
  ∧ (Event.save_row ∈ c2w_pair.2.trace ∧
      c2w_pair.1.led.overall_pass = overall_pass_of c2w_pair.1.led.test_results) :=
  ⟨rfl, rfl, @C2_restart_records_theorem 1 ["T02"] c2w_world c2w_pair rfl⟩

theorem get_yes_no_loop_false_isSome : ∀ (stdin : List String) {res : Option Bool}
    {rest : List String}, get_yes_no_loop false stdin = some (res, rest) →
    res.isSome = true
  | [], _, _, h => by simp [get_yes_no_loop] at h
  | s :: tail, res, rest, h => by
    unfold get_yes_no_loop at h
    by_cases hy : py_strip_lower s = "y" ∨ py_strip_lower s = "yes"
    · rw [if_pos hy] at h
      simp only [Option.some.injEq, Prod.mk.injEq] at h
      rw [← h.1]
      rfl
    · rw [if_neg hy] at h
      by_cases hn : py_strip_lower s = "n" ∨ py_strip_lower s = "no"
      · rw [if_pos hn] at h
        rw [if_neg (by simp)] at h
        simp only [Option.some.injEq, Prod.mk.injEq] at h
        rw [← h.1]
        rfl
      · rw [if_neg hn] at h
        exact get_yes_no_loop_false_isSome tail h

theorem gyn_false_isSome {q : String} {w : World} {res : Option Bool} {d : Nat}
    {w' : World} (h : get_yes_no_input q false w = some (res, d, w')) :
    res.isSome = true := by
  unfold get_yes_no_input at h
  cases hl : get_yes_no_loop false w.stdin with
  | none => rw [hl] at h; exact absurd h (by simp)
  | some pr =>
    obtain ⟨res', rest⟩ := pr
    rw [hl] at h
    simp only [Option.some.injEq, Prod.mk.injEq] at h
    obtain ⟨h1, -, -⟩ := h
    rw [← h1]
    exact get_yes_no_loop_false_isSome w.stdin hl

theorem run_session_restart_any {devid : Nat} {sel : List String} {w : World}
    {p : SessionOutcome × World} (h : run_session devid sel w = some p)
    (hr : p.1.restartFlag = true) : p.2.trace.any continue_prompt_event = true := by
  unfold run_session at h
  dsimp only at h
  by_cases hT01 : "T01" ∈ (TestResult.init devid sel).tests_to_run
  · rw [if_pos hT01] at h
    cases hw : wait_for_enter bootloader_text w with
    | none => rw [hw] at h; exact absurd h (by simp)
    | some w₁ =>
      rw [hw] at h
      dsimp only at h
      by_cases hfw : (upload_firmware_wipe (TestResult.init devid sel) w₁).2.1 = true
      · rw [if_pos hfw] at h
        exact (after_firmware_master h).2.2.1 hr
      · rw [if_neg hfw] at h
        rw [exit_fw_failed_eq h] at hr
        exact absurd hr (by simp)
  · rw [if_neg hT01] at h
    exact (after_firmware_master h).2.2.1 hr

/-- C10: a yes/no prompt with `allow_continue_check=False` returns only a
boolean (never the `None` restart sentinel), and consequently every
session restart is attributable to one of the six continue-checked prompts
(T02–T07): whenever an attempt ends with the restart flag set, its trace
contains a prompt from `continue_questions` — never merely the T12
question, which is the only prompt asked with the check off. -/
theorem C10_no_restart_without_continue_theorem :
    (∀ (q : String) (w : World) (res : Option Bool) (d : Nat) (w' : World),
      get_yes_no_input q false w = some (res, d, w') → res.isSome = true) ∧
    (∀ (devid : Nat) (sel : List String) (w : World) (p : SessionOutcome × World),
      run_session devid sel w = some p → p.1.restartFlag = true →
      p.2.trace.any continue_prompt_event = true) :=
  ⟨fun _ _ _ _ _ h => gyn_false_isSome h,
    fun _ _ _ _ h hr => run_session_restart_any h hr⟩

/-- C10 witness: the T12 question answered "y" with the check off yields a
boolean, and the "No then Stop at T03" run has its restart attributed to a
continue-checked prompt. -/
theorem C10_witness :
    (get_yes_no_input rgb_question false c10_world = some c10_trip
      ∧ c10_trip.1.isSome = true)
  ∧ (run_session 1 ["T03"] c10b_world = some c10b_pair
      ∧ c10b_pair.1.restartFlag = true
      ∧ c10b_pair.2.trace.any continue_prompt_event = true) :=
  ⟨⟨rfl, C10_no_restart_without_continue_theorem.1 rgb_question c10_world
      c10_trip.1 c10_trip.2.1 c10_trip.2.2 rfl⟩,
   ⟨rfl, rfl, C10_no_restart_without_continue_theorem.2 1 ["T03"] c10b_world
      c10b_pair rfl rfl⟩⟩

/-- C4: a catalog test id outside the session's selection keeps status
`Skipped` and duration `0` from construction of the ledger all the way
through finalization: no operation of a completed attempt ever writes to
an unselected entry. -/
theorem C4_unselected_immutable_theorem {devid : Nat} {sel : List String} {w : World}
    {p : SessionOutcome × World} (h : run_session devid sel w = some p)
    (tid : String) (hcat : tid ∈ test_ids_keys) (hsel : tid ∉ sel) :
    p.1.led.test_results tid = PyVal.skipped ∧
    p.1.led.test_durations tid = some 0 := by
  have hinit_res : (TestResult.init devid sel).test_results tid = PyVal.skipped := by
    simp [TestResult.init, hsel]
  have hinit_dur : (TestResult.init devid sel).test_durations tid = some 0 := by
    simp [TestResult.init, hsel]
  have hrun : tid ∉ (TestResult.init devid sel).tests_to_run := hsel
  unfold run_session at h
  dsimp only at h
  by_cases hT01 : "T01" ∈ (TestResult.init devid sel).tests_to_run
  · rw [if_pos hT01] at h
    cases hw : wait_for_enter bootloader_text w with
    | none => rw [hw] at h; exact absurd h (by simp)
    | some w₁ =>
      rw [hw] at h
      dsimp only at h
      obtain ⟨lFw, -, -, -⟩ := upload_fw_fact (TestResult.init devid sel) w₁ hT01
      obtain ⟨hres1, hdur1⟩ := lFw.1 tid (Or.inr hrun)
      have hrun1 : tid ∉ (upload_firmware_wipe (TestResult.init devid sel) w₁).1.tests_to_run := by
        rw [lFw.2.1]
        exact hrun
      by_cases hfw : (upload_firmware_wipe (TestResult.init devid sel) w₁).2.1 = true
      · rw [if_pos hfw] at h
        obtain ⟨-, -, -, lAf⟩ := after_firmware_master h
        obtain ⟨hres2, hdur2⟩ := lAf.1 tid (Or.inr hrun1)
        constructor
        · rw [hres2, hres1]
          exact hinit_res
        · rw [hdur2, hdur1]
          exact hinit_dur
      · rw [if_neg hfw] at h
        rw [exit_fw_failed_eq h]
        dsimp only
        constructor
        · show (upload_firmware_wipe (TestResult.init devid sel) w₁).1.test_results tid
            = PyVal.skipped
          rw [hres1]
          exact hinit_res
        · show (upload_firmware_wipe (TestResult.init devid sel) w₁).1.test_durations tid
            = some 0
          rw [hdur1]
          exact hinit_dur
  · rw [if_neg hT01] at h
    obtain ⟨-, -, -, lAf⟩ := after_firmware_master h
    obtain ⟨hres2, hdur2⟩ := lAf.1 tid (Or.inr hrun)
    constructor
    · rw [hres2]
      exact hinit_res
    · rw [hdur2]
      exact hinit_dur

/-- C4 witness: a session running only T02 (answered "y"); the unselected
T01 stays Skipped with duration 0 in the finalized ledger. -/
theorem C4_witness :
    run_session 1 c4_sel c4_world = some c4_pair
  ∧ ("T01" ∈ test_ids_keys)
  ∧ ("T01" ∉ c4_sel)
  ∧ c4_pair.1.led.test_results "T01" = PyVal.skipped
  ∧ c4_pair.1.led.test_durations "T01" = some 0 :=
  ⟨rfl, by decide, by decide,
    (@C4_unselected_immutable_theorem 1 c4_sel c4_world c4_pair rfl "T01"
      (by decide) (by decide)).1,
    (@C4_unselected_immutable_theorem 1 c4_sel c4_world c4_pair rfl "T01"
      (by decide) (by decide)).2⟩

/-- C8: when T01 is selected and the firmware step fails, the attempt
aborts every remaining group — the final trace holds only the bootloader
prompt and the report-row append, so no visual, UI or remote yes/no prompt
and no SSH activity occurred — the note is set to "Firmware upload
failed", and the ledger is finalized and recorded with T01 failed (its
failure detail logged) and `overall_pass = false`; the restart flag stays
off (this is the finalize-and-loop path, not the operator-stop restart). -/
theorem C8_firmware_abort_theorem {devid : Nat} {sel : List String} {w : World}
    {p : SessionOutcome × World} (h : run_session devid sel w = some p)
    (hsel : "T01" ∈ sel) (htrace : w.trace = [])
    (hfail : p.1.led.test_results "T01" = PyVal.pyFalse) :
    p.2.trace = [Event.prompt_enter bootloader_text, Event.save_row] ∧
    p.1.led.notes = "Firmware upload failed" ∧
    p.1.led.overall_pass = false ∧
    p.1.restartFlag = false ∧
    p.1.looped = true ∧
    p.1.led.log.any (fun e => decide (e.testId = "T01" ∧ e.status = some false)) = true := by
  have hT01 : "T01" ∈ (TestResult.init devid sel).tests_to_run := hsel
  unfold run_session at h
  dsimp only at h
  rw [if_pos hT01] at h
  cases hw : wait_for_enter bootloader_text w with
  | none => rw [hw] at h; exact absurd h (by simp)
  | some w₁ =>
    rw [hw] at h
    dsimp only at h
    obtain ⟨lFw, hTr, hTrue, hFalse⟩ := upload_fw_fact (TestResult.init devid sel) w₁ hT01
    by_cases hfw : (upload_firmware_wipe (TestResult.init devid sel) w₁).2.1 = true
    · rw [if_pos hfw] at h
      obtain ⟨-, -, -, lAf⟩ := after_firmware_master h
      have hT01notW : "T01" ∉ session_written := by decide
      obtain ⟨hres2, -⟩ := lAf.1 "T01" (Or.inl hT01notW)
      rw [hres2, hTrue hfw] at hfail
      exact absurd hfail (by simp)
    · rw [if_neg hfw] at h
      have hfw' : (upload_firmware_wipe (TestResult.init devid sel) w₁).2.1 = false :=
        Bool.eq_false_iff.mpr hfw
      obtain ⟨hresF, hlogF⟩ := hFalse hfw'
      rw [exit_fw_failed_eq h]
      dsimp only
      refine ⟨?_, rfl, ?_, rfl, rfl, ?_⟩
      · rw [save_trace, hTr, wait_for_enter_trace hw, htrace]
        simp
      · rw [save_overall, overall_pass_of_eq]
        have hall : (test_ids_keys.all fun id =>
            !((({ (upload_firmware_wipe (TestResult.init devid sel) w₁).1 with
              notes := "Firmware upload failed" } : TestResult).test_results id)).isFail)
            = false := by
          apply List.all_eq_false.mpr
          refine ⟨"T01", by decide, ?_⟩
          show ¬(!((upload_firmware_wipe (TestResult.init devid sel)
            w₁).1.test_results "T01").isFail) = true
          rw [hresF]
          decide
        rw [hall, Bool.and_false]
      · exact hlogF

/-- C8 witness: Scenario A — selection `{T01}`, the flash-nuke copy fails
(detail "Flash nuke failed"); the run aborts to finalize. -/
theorem C8_witness :
    run_session 1 ["T01"] c8_world = some c8_pair
  ∧ ("T01" ∈ (["T01"] : List String))
  ∧ c8_world.trace = []
  ∧ c8_pair.1.led.test_results "T01" = PyVal.pyFalse
  ∧ (c8_pair.2.trace = [Event.prompt_enter bootloader_text, Event.save_row] ∧
      c8_pair.1.led.notes = "Firmware upload failed" ∧
      c8_pair.1.led.overall_pass = false ∧
      c8_pair.1.restartFlag = false ∧
      c8_pair.1.looped = true ∧
      c8_pair.1.led.log.any
        (fun e => decide (e.testId = "T01" ∧ e.status = some false)) = true) :=
  ⟨rfl, by decide, rfl, rfl,
    @C8_firmware_abort_theorem 1 ["T01"] c8_world c8_pair rfl (by decide) rfl rfl⟩

theorem notNonPrompt_yn (q : String) : ¬ NonPrompt (Event.prompt_yn q) :=
  fun hnp => hnp q rfl

theorem notRgbOnly_q06 : ¬ RgbPromptOnly (Event.prompt_yn q_T06) := by
  intro hr
  have := hr q_T06 rfl
  exact absurd this (by decide)

theorem notRgbOnly_q07 : ¬ RgbPromptOnly (Event.prompt_yn q_T07) := by
  intro hr
  have := hr q_T07 rfl
  exact absurd this (by decide)

theorem after_firmware_ui {tr : TestResult} {w : World} {p : SessionOutcome × World}
    (h : after_firmware tr w = some p)
    (hl : p.1.looped = false)
    (h6tr : Event.prompt_yn q_T06 ∉ w.trace)
    (h7tr : Event.prompt_yn q_T07 ∉ w.trace) :
    ("T06" ∈ tr.tests_to_run →
      ((Event.prompt_yn q_T06 ∈ p.2.trace) ↔
        ("T05" ∉ tr.tests_to_run ∨ p.1.led.test_results "T05" = PyVal.pyTrue))) ∧
    ("T07" ∈ tr.tests_to_run →
      ((Event.prompt_yn q_T07 ∈ p.2.trace) ↔
        ("T05" ∉ tr.tests_to_run ∨ p.1.led.test_results "T05" = PyVal.pyTrue))) ∧
    ("T05" ∈ tr.tests_to_run → p.1.led.test_results "T05" ≠ PyVal.pyTrue →
      p.1.led.test_results "T06" = tr.test_results "T06" ∧
      p.1.led.test_results "T07" = tr.test_results "T07") := by
  unfold after_firmware at h
  dsimp only at h
  cases hq : (if hardware_test_ids.any (fun t => decide (t ∈ tr.tests_to_run)) = true
      then wait_for_enter assembly_text w else some w) with
  | none => rw [hq] at h; exact absurd h (by simp)
  | some w₁ =>
    rw [hq] at h
    dsimp only at h
    have tW : TraceAdds NonPrompt w w₁ := by
      by_cases hc : hardware_test_ids.any (fun t => decide (t ∈ tr.tests_to_run)) = true
      · rw [if_pos hc] at hq
        exact traceAdds_single _ (wait_for_enter_trace hq) (NonPrompt.enter _)
      · rw [if_neg hc] at hq
        cases hq
        exact TraceAdds.refl _ _
    rcases step_then_cases h with ⟨trh, wh, hs, hx⟩ | ⟨trA, wA, hsA, h⟩
    · rw [exit_restart_eq hx] at hl
      exact absurd hl (by simp)
    · obtain ⟨lA, tA, -⟩ := visual_step_next hsA
      rcases step_then_cases h with ⟨trh, wh, hs, hx⟩ | ⟨trB, wB, hsB, h⟩
      · rw [exit_restart_eq hx] at hl
        exact absurd hl (by simp)
      · obtain ⟨lB, tB, -⟩ := visual_step_next hsB
        rcases step_then_cases h with ⟨trh, wh, hs, hx⟩ | ⟨trC, wC, hsC, h⟩
        · rw [exit_restart_eq hx] at hl
          exact absurd hl (by simp)
        · obtain ⟨lC, tC, -⟩ := visual_step_next hsC
          rcases step_then_cases h with ⟨trh, wh, hs, hx⟩ | ⟨trD, wD, hsD, h⟩
          · rw [exit_restart_eq hx] at hl
            exact absurd hl (by simp)
          · obtain ⟨lD, tD, m6iff, m7iff, hcPres⟩ := ui_group_next hsD
            obtain ⟨-, -, -, -, lS, tS⟩ := ssh_then_save_master h
            have hrunA : trA.tests_to_run = tr.tests_to_run := lA.2.1
            have hrunB : trB.tests_to_run = tr.tests_to_run := by rw [lB.2.1, hrunA]
            have hrunC : trC.tests_to_run = tr.tests_to_run := by rw [lC.2.1, hrunB]
            have h6w₁ : Event.prompt_yn q_T06 ∉ w₁.trace := by
              rw [tW.not_new (notNonPrompt_yn _)]
              exact h6tr
            have h6A : Event.prompt_yn q_T06 ∉ wA.trace := by
              rw [tA.not_new (by decide)]
              exact h6w₁
            have h6B : Event.prompt_yn q_T06 ∉ wB.trace := by
              rw [tB.not_new (by decide)]
              exact h6A
            have h6C : Event.prompt_yn q_T06 ∉ wC.trace := by
              rw [tC.not_new (by decide)]
              exact h6B
            have h7w₁ : Event.prompt_yn q_T07 ∉ w₁.trace := by
              rw [tW.not_new (notNonPrompt_yn _)]
              exact h7tr
            have h7A : Event.prompt_yn q_T07 ∉ wA.trace := by
              rw [tA.not_new (by decide)]
              exact h7w₁
            have h7B : Event.prompt_yn q_T07 ∉ wB.trace := by
              rw [tB.not_new (by decide)]
              exact h7A
            have h7C : Event.prompt_yn q_T07 ∉ wC.trace := by
              rw [tC.not_new (by decide)]
              exact h7B
            have hT05res : p.1.led.test_results "T05" = trD.test_results "T05" :=
              (lS.1 "T05" (Or.inl (by decide))).1
            have hT06res : p.1.led.test_results "T06" = trD.test_results "T06" :=
              (lS.1 "T06" (Or.inl (by decide))).1
            have hT07res : p.1.led.test_results "T07" = trD.test_results "T07" :=
              (lS.1 "T07" (Or.inl (by decide))).1
            have hfin6 : (Event.prompt_yn q_T06 ∈ p.2.trace) ↔
                Event.prompt_yn q_T06 ∈ wD.trace := tS.not_new notRgbOnly_q06
            have hfin7 : (Event.prompt_yn q_T07 ∈ p.2.trace) ↔
                Event.prompt_yn q_T07 ∈ wD.trace := tS.not_new notRgbOnly_q07
            refine ⟨?_, ?_, ?_⟩
            · intro hm6
              have hm6' : "T06" ∈ trC.tests_to_run := by rw [hrunC]; exact hm6
              rw [hfin6, m6iff hm6']
              constructor
              · rintro (hmem | hno | heq)
                · exact absurd hmem h6C
                · exact Or.inl (by rw [hrunC] at hno; exact hno)
                · exact Or.inr (by rw [hT05res]; exact heq)
              · rintro (hno | heq)
                · exact Or.inr (Or.inl (by rw [hrunC]; exact hno))
                · exact Or.inr (Or.inr (by rw [← hT05res]; exact heq))
            · intro hm7
              have hm7' : "T07" ∈ trC.tests_to_run := by rw [hrunC]; exact hm7
              rw [hfin7, m7iff hm7']
              constructor
              · rintro (hmem | hno | heq)
                · exact absurd hmem h7C
                · exact Or.inl (by rw [hrunC] at hno; exact hno)
                · exact Or.inr (by rw [hT05res]; exact heq)
              · rintro (hno | heq)
                · exact Or.inr (Or.inl (by rw [hrunC]; exact hno))
                · exact Or.inr (Or.inr (by rw [← hT05res]; exact heq))
            · intro hm5 hne
              have hm5' : "T05" ∈ trC.tests_to_run := by rw [hrunC]; exact hm5
              have hne' : trD.test_results "T05" ≠ PyVal.pyTrue := by
                rw [← hT05res]
                exact hne
              obtain ⟨h6eq, h7eq⟩ := hcPres hm5' hne'
              have hA6 : trA.test_results "T06" = tr.test_results "T06" :=
                (lA.1 "T06" (Or.inl (by decide))).1
              have hB6 : trB.test_results "T06" = trA.test_results "T06" :=
                (lB.1 "T06" (Or.inl (by decide))).1
              have hC6 : trC.test_results "T06" = trB.test_results "T06" :=
                (lC.1 "T06" (Or.inl (by decide))).1
              have hA7 : trA.test_results "T07" = tr.test_results "T07" :=
                (lA.1 "T07" (Or.inl (by decide))).1
              have hB7 : trB.test_results "T07" = trA.test_results "T07" :=
                (lB.1 "T07" (Or.inl (by decide))).1
              have hC7 : trC.test_results "T07" = trB.test_results "T07" :=
                (lC.1 "T07" (Or.inl (by decide))).1
              constructor
              · rw [hT06res, h6eq, hC6, hB6, hA6]
              · rw [hT07res, h7eq, hC7, hB7, hA7]

theorem nonNone_iff_true (v : PyVal) : v.nonNone = true ↔ v ≠ PyVal.unset := by
  cases v <;> simp [PyVal.nonNone]

theorem not_isFail_iff (v : PyVal) : (!v.isFail) = true ↔ v ≠ PyVal.pyFalse := by
  cases v <;> simp [PyVal.isFail]

theorem overall_pass_iff (r : String → PyVal) :
    overall_pass_of r = true ↔
      ((∃ tid ∈ test_ids_keys, r tid ≠ PyVal.unset) ∧
        ∀ tid ∈ test_ids_keys, r tid ≠ PyVal.pyFalse) := by
  rw [overall_pass_of_eq, Bool.and_eq_true, List.any_eq_true, List.all_eq_true]
  constructor
  · rintro ⟨⟨tid, hm, hv⟩, hall⟩
    exact ⟨⟨tid, hm, (nonNone_iff_true _).mp hv⟩,
      fun tid hm => (not_isFail_iff _).mp (hall tid hm)⟩
  · rintro ⟨⟨tid, hm, hv⟩, hall⟩
    exact ⟨⟨tid, hm, (nonNone_iff_true _).mpr hv⟩,
      fun tid hm => (not_isFail_iff _).mpr (hall tid hm)⟩

theorem init_results_of_mem {devid : Nat} {sel : List String} {id : String}
    (hm : id ∈ sel) :
    (TestResult.init devid sel).test_results id = PyVal.unset := by
  show (if id ∈ sel then PyVal.unset else PyVal.skipped) = PyVal.unset
  rw [if_pos hm]

/-- C7: in every completed attempt that did not restart, the T06 and T07
prompts are shown iff T05 was not selected or finished `Pass`; when T05
was selected and did not pass, selected T06/T07 stay `Unset`; and the
finalized `overall_pass` is the AND over non-Unset entries (true iff some
entry is non-Unset and none is Fail). -/
theorem C7_ui_dependency_theorem {devid : Nat} {sel : List String} {w : World}
    {p : SessionOutcome × World}
    (h : run_session devid sel w = some p)
    (ht : w.trace = []) (hl : p.1.looped = false) :
    ("T06" ∈ sel →
      ((Event.prompt_yn q_T06 ∈ p.2.trace) ↔
        ("T05" ∉ sel ∨ p.1.led.test_results "T05" = PyVal.pyTrue))) ∧
    ("T07" ∈ sel →
      ((Event.prompt_yn q_T07 ∈ p.2.trace) ↔
        ("T05" ∉ sel ∨ p.1.led.test_results "T05" = PyVal.pyTrue))) ∧
    ("T05" ∈ sel → p.1.led.test_results "T05" ≠ PyVal.pyTrue →
      ("T06" ∈ sel → p.1.led.test_results "T06" = PyVal.unset) ∧
      ("T07" ∈ sel → p.1.led.test_results "T07" = PyVal.unset)) ∧
    (p.1.led.overall_pass = true ↔
      ((∃ tid ∈ test_ids_keys, p.1.led.test_results tid ≠ PyVal.unset) ∧
        ∀ tid ∈ test_ids_keys, p.1.led.test_results tid ≠ PyVal.pyFalse)) := by
  unfold run_session at h
  dsimp only at h
  by_cases h01 : "T01" ∈ (TestResult.init devid sel).tests_to_run
  · rw [if_pos h01] at h
    cases hwq : wait_for_enter bootloader_text w with
    | none => rw [hwq] at h; exact absurd h (by simp)
    | some w₁ =>
      rw [hwq] at h
      dsimp only at h
      by_cases hok : (upload_firmware_wipe (TestResult.init devid sel) w₁).2.1 = true
      · rw [if_pos hok] at h
        obtain ⟨lFw, htrFw, -, -⟩ := upload_fw_fact (TestResult.init devid sel) w₁ h01
        have hw₁tr : w₁.trace = w.trace ++ [Event.prompt_enter bootloader_text] :=
          wait_for_enter_trace hwq
        have h6 : Event.prompt_yn q_T06 ∉
            (upload_firmware_wipe (TestResult.init devid sel) w₁).2.2.trace := by
          rw [htrFw, hw₁tr, ht]; decide
        have h7 : Event.prompt_yn q_T07 ∉
            (upload_firmware_wipe (TestResult.init devid sel) w₁).2.2.trace := by
          rw [htrFw, hw₁tr, ht]; decide
        obtain ⟨u6, u7, uc⟩ := after_firmware_ui h hl h6 h7
        have hover := (after_firmware_master h).2.1
        have hrunFw : (upload_firmware_wipe (TestResult.init devid sel) w₁).1.tests_to_run
            = sel := by rw [lFw.2.1]; rfl
        have hres5 : (upload_firmware_wipe (TestResult.init devid sel) w₁).1.test_results "T05"
            = (TestResult.init devid sel).test_results "T05" :=
          (lFw.1 "T05" (Or.inl (by decide))).1
        have hres6 : (upload_firmware_wipe (TestResult.init devid sel) w₁).1.test_results "T06"
            = (TestResult.init devid sel).test_results "T06" :=
          (lFw.1 "T06" (Or.inl (by decide))).1
        have hres7 : (upload_firmware_wipe (TestResult.init devid sel) w₁).1.test_results "T07"
            = (TestResult.init devid sel).test_results "T07" :=
          (lFw.1 "T07" (Or.inl (by decide))).1
        refine ⟨?_, ?_, ?_, ?_⟩
        · intro hm6
          have := u6 (by rw [hrunFw]; exact hm6)
          rw [hrunFw] at this
          exact this
        · intro hm7
          have := u7 (by rw [hrunFw]; exact hm7)
          rw [hrunFw] at this
          exact this
        · intro hm5 hne
          obtain ⟨e6, e7⟩ := uc (by rw [hrunFw]; exact hm5) hne
          refine ⟨fun hm6 => ?_, fun hm7 => ?_⟩
          · rw [e6, hres6, init_results_of_mem hm6]
          · rw [e7, hres7, init_results_of_mem hm7]
        · rw [hover]
          exact overall_pass_iff _
      · rw [if_neg hok] at h
        rw [exit_fw_failed_eq h] at hl
        exact absurd hl (by simp)
  · rw [if_neg h01] at h
    have h6 : Event.prompt_yn q_T06 ∉ w.trace := by rw [ht]; exact List.not_mem_nil _
    have h7 : Event.prompt_yn q_T07 ∉ w.trace := by rw [ht]; exact List.not_mem_nil _
    obtain ⟨u6, u7, uc⟩ := after_firmware_ui h hl h6 h7
    have hover := (after_firmware_master h).2.1
    refine ⟨?_, ?_, ?_, ?_⟩
    · intro hm6
      exact u6 hm6
    · intro hm7
      exact u7 hm7
    · intro hm5 hne
      obtain ⟨e6, e7⟩ := uc hm5 hne
      refine ⟨fun hm6 => ?_, fun hm7 => ?_⟩
      · rw [e6]; exact init_results_of_mem hm6
      · rw [e7]; exact init_results_of_mem hm7
    · rw [hover]
      exact overall_pass_iff _

theorem C7_witness :
    run_session 1 c7_sel c7_world = some c7_pair ∧ c7_world.trace = [] ∧
    c7_pair.1.looped = false ∧
    (("T06" ∈ c7_sel →
      ((Event.prompt_yn q_T06 ∈ c7_pair.2.trace) ↔
        ("T05" ∉ c7_sel ∨ c7_pair.1.led.test_results "T05" = PyVal.pyTrue))) ∧
    ("T07" ∈ c7_sel →
      ((Event.prompt_yn q_T07 ∈ c7_pair.2.trace) ↔
        ("T05" ∉ c7_sel ∨ c7_pair.1.led.test_results "T05" = PyVal.pyTrue))) ∧
    ("T05" ∈ c7_sel → c7_pair.1.led.test_results "T05" ≠ PyVal.pyTrue →
      ("T06" ∈ c7_sel → c7_pair.1.led.test_results "T06" = PyVal.unset) ∧
      ("T07" ∈ c7_sel → c7_pair.1.led.test_results "T07" = PyVal.unset)) ∧
    (c7_pair.1.led.overall_pass = true ↔
      ((∃ tid ∈ test_ids_keys, c7_pair.1.led.test_results tid ≠ PyVal.unset) ∧
        ∀ tid ∈ test_ids_keys, c7_pair.1.led.test_results tid ≠ PyVal.pyFalse))) :=
  ⟨rfl, rfl, rfl, @C7_ui_dependency_theorem 1 c7_sel c7_world c7_pair rfl rfl rfl⟩
